import Mathlib

/-!
The command mesheryctl `app view`: a shallow embedding of `viewCmd.RunE`.

Source: `mesheryctl/internal/cli/root/app/view.go`.

Go strings and byte slices are modelled as `String`, Go errors by their message,
the collaborators the command calls (configuration, HTTP transport, auth decoration,
`encoding/json`, `ghodss/yaml`, `fmt` renderings of library types) are fields of a
`World`, and every collaborator call and every write to standard output is recorded
in a trace of `Event`s.
-/

set_option autoImplicit false

namespace View

/-! ## The regular expression of line 73 -/

/-- One item of a bracketed character class: a range `lo-hi` or a single character. -/
inductive ClassItem where
  | range (lo hi : Char)
  | single (c : Char)

/-- Membership of a character in one class item. -/
def ClassItem.accepts : ClassItem → Char → Bool
  | .range lo hi, c => decide (lo.toNat ≤ c.toNat) && decide (c.toNat ≤ hi.toNat)
  | .single d, c => decide (c = d)

/-- A piece of the pattern: a character class repeated a fixed number of times
(`[..]{n}`); a literal character is a one-item class repeated once. -/
structure Piece where
  cls : List ClassItem
  count : Nat

/-- Membership of a character in a bracketed class. -/
def classAccepts (cls : List ClassItem) (c : Char) : Bool :=
  cls.any (fun i => i.accepts c)

/-- Consume exactly `n` characters of the class from the input; `none` when the input
is too short or a character is outside the class. -/
def consume (cls : List ClassItem) : Nat → List Char → Option (List Char)
  | 0, cs => some cs
  | _ + 1, [] => none
  | n + 1, c :: cs => if classAccepts cls c then consume cls n cs else none

/-- Anchored match `^p1 p2 ... pk$` of a sequence of pieces against the whole input. -/
def matchPieces : List Piece → List Char → Bool
  | [], cs => cs.isEmpty
  | p :: ps, cs =>
    match consume p.cls p.count cs with
    | none => false
    | some rest => matchPieces ps rest

/-- The class `[a-fA-F0-9]`. -/
def hexClass : List ClassItem :=
  [.range 'a' 'f', .range 'A' 'F', .range '0' '9']

/-- The class `[8|9|aA|bB]`, item by item as written in the source: inside brackets
the bar is a literal character. -/
def variantClass : List ClassItem :=
  [.single '8', .single '|', .single '9', .single '|', .single 'a', .single 'A',
   .single '|', .single 'b', .single 'B']

/-- The pattern
`^[a-fA-F0-9]{8}-[a-fA-F0-9]{4}-4[a-fA-F0-9]{3}-[8|9|aA|bB][a-fA-F0-9]{3}-[a-fA-F0-9]{12}$`. -/
def uuidV4Pattern : List Piece :=
  [⟨hexClass, 8⟩, ⟨[.single '-'], 1⟩,
   ⟨hexClass, 4⟩, ⟨[.single '-'], 1⟩,
   ⟨[.single '4'], 1⟩, ⟨hexClass, 3⟩, ⟨[.single '-'], 1⟩,
   ⟨variantClass, 1⟩, ⟨hexClass, 3⟩, ⟨[.single '-'], 1⟩,
   ⟨hexClass, 12⟩]

/-- `regexp.MatchString(pattern, s)`: the match flag and the compile error; a pattern
given as a list of pieces always compiles. -/
def MatchString (pattern : List Piece) (s : String) : Except String Bool :=
  .ok (matchPieces pattern s.toList)

/-! ## The canonical version-4 UUID form, in the words of the specification -/

/-- Hex digit, either case. -/
def isHexDigit (c : Char) : Bool :=
  ('0'.toNat ≤ c.toNat && c.toNat ≤ '9'.toNat) ||
  ('a'.toNat ≤ c.toNat && c.toNat ≤ 'f'.toNat) ||
  ('A'.toNat ≤ c.toNat && c.toNat ≤ 'F'.toNat)

/-- One of `8, 9, a, A, b, B`. -/
def isVariantDigit (c : Char) : Bool :=
  c = '8' || c = '9' || c = 'a' || c = 'A' || c = 'b' || c = 'B'

/-- Canonical version-4 UUID text: 8 hex, dash, 4 hex, dash, `4` and 3 hex, dash, a
variant digit and 3 hex, dash, 12 hex; nothing before or after. -/
def isCanonicalUUIDv4 (s : String) : Bool :=
  let cs := s.toList
  cs.length = 36 &&
  (cs.take 8).all isHexDigit &&
  cs.get? 8 = some '-' &&
  ((cs.drop 9).take 4).all isHexDigit &&
  cs.get? 13 = some '-' &&
  cs.get? 14 = some '4' &&
  ((cs.drop 15).take 3).all isHexDigit &&
  cs.get? 18 = some '-' &&
  (match cs.get? 19 with | some c => isVariantDigit c | none => false) &&
  ((cs.drop 20).take 3).all isHexDigit &&
  cs.get? 23 = some '-' &&
  ((cs.drop 24).take 12).all isHexDigit

/-! ## Data model -/

/-- Values an `interface{}` holds after `encoding/json` decoding. The command never
looks inside a number, which is kept as an integer. -/
inductive JVal where
  | null
  | bool (b : Bool)
  | num (n : Int)
  | str (s : String)
  | arr (items : List JVal)
  | obj (fields : List (String × JVal))

/-- A Go `map[string]interface{}` (also `sql.Map`): `none` is the nil map, `some kvs`
holds the entries, the first entry of a key being its value. -/
abbrev GoMap := Option (List (String × JVal))

/-- Indexing `m[key]`: the value when the key is present, the zero value (nil) when it
is absent or the map is nil. -/
def GoMap.index (m : GoMap) (key : String) : JVal :=
  match m with
  | none => .null
  | some kvs =>
    match kvs.find? (fun kv => kv.1 == key) with
    | some kv => kv.2
    | none => .null

/-- A `uuid.UUID`, identified with what its `String()` method returns. -/
structure UUID where
  text : String

/-- A `time.Time`, identified with what its `String()` method returns. -/
structure Time where
  text : String

/-- Modelled from the spec: the type declaration `models.MesheryApplication` is
missing; these are the attributes of a ResourceRecord that the command reads, with
the pointer fields of `appStruct` (`none` is the nil pointer). -/
structure MesheryApplication where
  ID : Option UUID
  Name : String
  ApplicationFile : String
  Location : GoMap
  UserID : Option String
  UpdatedAt : Option Time
  CreatedAt : Option Time

/-- Modelled from the spec: the type declaration `models.ApplicationsAPIResponse` is
missing; a CollectionResponse is a total count and an ordered sequence of records
(`none` is the nil slice). -/
structure ApplicationsAPIResponse where
  TotalCount : Nat
  Applications : Option (List MesheryApplication)

/-- The struct `appStruct` of lines 24 to 32. -/
structure appStruct where
  Name : String
  ID : Option UUID
  ApplicationFile : String
  UserID : Option String
  Location : GoMap
  UpdatedAt : Option Time
  CreatedAt : Option Time

/-- The values handed to `json.MarshalIndent`: an untyped mapping or a pointer to an
`appStruct`. -/
inductive GoValue where
  | mapValue (m : GoMap)
  | appStructPtr (a : appStruct)

/-- An `*http.Request`: method, URL and the token path it was decorated with. -/
structure Request where
  Method : String
  URL : String
  TokenPath : Option String

/-- An `*http.Response`: the status code and the result of reading the whole body. -/
structure Response where
  StatusCode : Int
  Body : Except String String

/-- The loaded mesheryctl configuration, as far as the command uses it. -/
structure MesheryCtlConfig where
  GetBaseMesheryURL : String

/-- The collaborators of the command and the process-wide variable `tokenPath`. -/
structure World where
  /-- Result of `config.GetMesheryCtl(viper.GetViper())`. -/
  GetMesheryCtl : Except String MesheryCtlConfig
  /-- The package variable `tokenPath` when the command starts. -/
  tokenPath : String
  /-- Result of `constants.GetCurrentAuthToken()`. -/
  GetCurrentAuthToken : String
  /-- The error `http.NewRequest(method, url, nil)` returns, if any. -/
  NewRequestErr : String → String → Option String
  /-- The error `utils.AddAuthDetails(req, tokenPath)` returns, if any. -/
  AddAuthDetailsErr : Request → String → Option String
  /-- Result of `client.Do(req)`. -/
  Do : Request → Except String Response
  /-- Result of `json.Unmarshal(body, &dat)` with `dat` a `map[string]interface{}`. -/
  UnmarshalMap : String → Except String GoMap
  /-- Result of `json.Unmarshal(body, &response)`; `none` is the nil pointer. -/
  UnmarshalResponse : String → Except String (Option ApplicationsAPIResponse)
  /-- Result of `json.MarshalIndent(v, "", "  ")`. -/
  MarshalIndent : GoValue → Except String String
  /-- Result of `yaml.JSONToYAML(body)`. -/
  JSONToYAML : String → Except String String
  /-- Rendering of a `*string` under the verb `%v`. -/
  fmtUserID : Option String → String
  /-- Rendering of an `sql.Map` under the verb `%v`. -/
  fmtLocation : GoMap → String

/-- What the command does that is visible outside it, in order. -/
inductive Event where
  | NewRequest (method url : String)
  | AddAuthDetails (tokenPath : String)
  | Do (req : Request)
  | ReadAll
  | Unmarshal (body : String)
  | MarshalIndent (v : GoValue)
  | JSONToYAML (body : String)
  | Stdout (text : String)

/-- How the command ends: `nil`, an error with its message, or a run-time panic. -/
inductive Result where
  | ok
  | err (msg : String)
  | panic (msg : String)

/-- A finished run: the events in order and the way it ended. -/
structure Outcome where
  trace : List Event
  result : Result

/-- Prefix a run with the events that happened before it. -/
def Outcome.after (evs : List Event) (o : Outcome) : Outcome :=
  ⟨evs ++ o.trace, o.result⟩

/-- `errors.Wrap(err, msg)`, as a message. -/
def Wrap (err msg : String) : String := msg ++ ": " ++ err

/-- `strings.Join(elems, sep)`. -/
def Join : List String → String → String
  | [], _ => ""
  | [a], _ => a
  | a :: b :: rest, sep => a ++ sep ++ Join (b :: rest) sep

/-- The built-in `len` of a string: its length in bytes. -/
def len (s : String) : Nat := s.utf8ByteSize

/-- The message of the run-time panic raised by a nil pointer dereference. -/
def nilDereference : String :=
  "runtime error: invalid memory address or nil pointer dereference"

/-! ## The command -/

/-- Lines 60 to 62: the token path in force, the current auth token when the package
variable is empty. -/
def effectiveTokenPath (w : World) : String :=
  if w.tokenPath = "" then w.GetCurrentAuthToken else w.tokenPath

/-- Lines 175 to 182: the output-format step on the final `body`. -/
def render (w : World) (outFormatFlag : String) (body : String) : Outcome :=
  if outFormatFlag = "yaml" then
    match w.JSONToYAML body with
    | .error err => ⟨[.JSONToYAML body], .err (Wrap err "failed to convert json to yaml")⟩
    | .ok _ => ⟨[.JSONToYAML body], .ok⟩
  else if outFormatFlag ≠ "json" then
    ⟨[], .err "output-format choice invalid, use [json|yaml]"⟩
  else
    ⟨[], .ok⟩

/-- How the loop of lines 144 to 172 is left: it ran over every record and leaves
`body`, or the function returned (or panicked) from inside it. -/
inductive LoopExit where
  | completed (body : String)
  | returned (r : Result)

/-- The record built at lines 149 to 157. -/
def appStruct.ofApp (app : MesheryApplication) : appStruct :=
  { Name := app.Name
    ID := app.ID
    ApplicationFile := app.ApplicationFile
    UserID := app.UserID
    Location := app.Location
    UpdatedAt := app.UpdatedAt
    CreatedAt := app.CreatedAt }

/-- Lines 158 to 169 for one record whose name matched, `a` being the record built from
it: marshal it into `body`, then print the summary; reading `a.ID`, `a.UpdatedAt` or
`a.CreatedAt` through a nil pointer panics before the line is printed. -/
def viewStep (w : World) (a : appStruct) : List Event × LoopExit :=
  match w.MarshalIndent (.appStructPtr a) with
  | .error err => ([.MarshalIndent (.appStructPtr a)], .returned (.err err))
  | .ok body1 =>
    match a.ID with
    | none =>
      ([.MarshalIndent (.appStructPtr a),
        .Stdout ("Name: " ++ a.Name ++ "\n")], .returned (.panic nilDereference))
    | some id =>
      match a.UpdatedAt with
      | none =>
        ([.MarshalIndent (.appStructPtr a),
          .Stdout ("Name: " ++ a.Name ++ "\n"),
          .Stdout ("ID: " ++ id.text ++ "\n"),
          .Stdout ("ApplicationFile: " ++ a.ApplicationFile ++ "\n")],
         .returned (.panic nilDereference))
      | some updatedAt =>
        match a.CreatedAt with
        | none =>
          ([.MarshalIndent (.appStructPtr a),
            .Stdout ("Name: " ++ a.Name ++ "\n"),
            .Stdout ("ID: " ++ id.text ++ "\n"),
            .Stdout ("ApplicationFile: " ++ a.ApplicationFile ++ "\n"),
            .Stdout ("UpdatedAt: " ++ updatedAt.text ++ "\n")],
           .returned (.panic nilDereference))
        | some createdAt =>
          ([.MarshalIndent (.appStructPtr a),
            .Stdout ("Name: " ++ a.Name ++ "\n"),
            .Stdout ("ID: " ++ id.text ++ "\n"),
            .Stdout ("ApplicationFile: " ++ a.ApplicationFile ++ "\n"),
            .Stdout ("UpdatedAt: " ++ updatedAt.text ++ "\n"),
            .Stdout ("CreatedAt: " ++ createdAt.text ++ "\n"),
            .Stdout ("UserID: " ++ w.fmtUserID a.UserID ++ "\n"),
            .Stdout ("Location: " ++ w.fmtLocation a.Location ++ "\n"),
            .Stdout "#####################\n"], .completed body1)

/-- Lines 144 to 172: the loop over `response.Applications`, from the records still to
visit and the current `body`; returns the events of the loop and how it is left. After
a matching record the loop goes on with the next one (`continue`). -/
def viewLoop (w : World) (response : ApplicationsAPIResponse) (application : String) :
    List MesheryApplication → String → List Event × LoopExit
  | [], body => ([], .completed body)
  | app :: rest, body =>
    if response.Applications.isNone then
      ([], .returned (.err "application name not provide. Please get an app name and try again. Use `mesheryctl app list` to see a list of applications"))
    else if app.Name = application then
      match viewStep w (appStruct.ofApp app) with
      | (evs, .returned r) => (evs, .returned r)
      | (evs, .completed body1) =>
        (evs ++ (viewLoop w response application rest body1).1,
         (viewLoop w response application rest body1).2)
    else
      viewLoop w response application rest body

/-- Lines 130 to 183: the choice of what to marshal, then the output-format step. -/
def project (w : World) (isID viewAllFlag : Bool) (outFormatFlag application : String)
    (dat : GoMap) (response : Option ApplicationsAPIResponse) (body : String) : Outcome :=
  if isID then
    Outcome.after [.MarshalIndent (.mapValue dat)] <|
    match w.MarshalIndent (.mapValue dat) with
    | .error err => ⟨[], .err err⟩
    | .ok body1 => render w outFormatFlag body1
  else if viewAllFlag then
    Outcome.after
      [.MarshalIndent (.mapValue (some [("applications", dat.index "applications")]))] <|
    match w.MarshalIndent (.mapValue (some [("applications", dat.index "applications")])) with
    | .error err => ⟨[], .err err⟩
    | .ok body1 => render w outFormatFlag body1
  else
    match response with
    | none => ⟨[], .panic nilDereference⟩
    | some response =>
      if response.TotalCount = 0 then
        ⟨[], .err "application does not exit. Please get an app name and try again. Use `mesheryctl app list` to see a list of applications"⟩
      else
        Outcome.after (viewLoop w response application (response.Applications.getD []) body).1 <|
        match (viewLoop w response application (response.Applications.getD []) body).2 with
        | .returned r => ⟨[], r⟩
        | .completed body1 => render w outFormatFlag body1

/-- Lines 97 to 129, followed by the rest of the function: build, decorate and send the
request, check the status, read and decode the body twice. -/
def fetch (w : World) (tokenPath url : String) (isID viewAllFlag : Bool)
    (outFormatFlag application : String) : Outcome :=
  Outcome.after [.NewRequest "GET" url] <|
  match w.NewRequestErr "GET" url with
  | some err => ⟨[], .err err⟩
  | none =>
    Outcome.after [.AddAuthDetails tokenPath] <|
    match w.AddAuthDetailsErr ⟨"GET", url, none⟩ tokenPath with
    | some err => ⟨[], .err err⟩
    | none =>
      Outcome.after [.Do ⟨"GET", url, some tokenPath⟩] <|
      match w.Do ⟨"GET", url, some tokenPath⟩ with
      | .error err => ⟨[], .err err⟩
      | .ok res =>
        if res.StatusCode ≠ 200 then
          ⟨[], .err ("Response Status Code " ++ toString res.StatusCode ++
            ", possible invalid ID")⟩
        else
          Outcome.after [.ReadAll] <|
          match res.Body with
          | .error err => ⟨[], .err err⟩
          | .ok body =>
            Outcome.after [.Unmarshal body] <|
            match w.UnmarshalMap body with
            | .error err => ⟨[], .err (Wrap err "failed to unmarshal response body")⟩
            | .ok dat =>
              Outcome.after [.Unmarshal body] <|
              match w.UnmarshalResponse body with
              | .error err => ⟨[], .err (Wrap err "failed to unmarshal response body")⟩
              | .ok response =>
                project w isID viewAllFlag outFormatFlag application dat response body

/-- The function `RunE` of `viewCmd` (lines 54 to 183), with the package variables
`viewAllFlag` and `outFormatFlag` as arguments. -/
def RunE (w : World) (args : List String) (viewAllFlag : Bool) (outFormatFlag : String) :
    Outcome :=
  match w.GetMesheryCtl with
  | .error err => ⟨[], .err (Wrap err "error processing config")⟩
  | .ok mctlCfg =>
    let tokenPath := effectiveTokenPath w
    -- lines 63 to 77: `isID`, `applicationID`, or the error returned from inside the `if`
    let classified : Except String (Bool × String) :=
      match args with
      | [] => .ok (false, "")
      | arg0 :: _ =>
        if viewAllFlag then
          .error "-a cannot be used when [application-name|application-id] is specified"
        else
          match MatchString uuidV4Pattern arg0 with
          | .error err => .error err
          | .ok isID => .ok (isID, arg0)
    match classified with
    | .error err => ⟨[], .err err⟩
    | .ok (isID, applicationID) =>
      let url := mctlCfg.GetBaseMesheryURL
      let application := Join args "%20"
      if len application = 0 then
        if viewAllFlag then
          fetch w tokenPath (url ++ "/api/experimental/application?page_size=10000")
            isID viewAllFlag outFormatFlag application
        else
          ⟨[], .err "[application-name|application-id] not specified, use -a to view all applications"⟩
      else if isID then
        fetch w tokenPath (url ++ "/api/experimental/application/" ++ applicationID)
          isID viewAllFlag outFormatFlag application
      else
        fetch w tokenPath (url ++ "/api/experimental/application?search=" ++ application)
          isID viewAllFlag outFormatFlag application

/-! ## Observations on a run -/

/-- The URL of a request sent with `client.Do`. -/
def Event.requestURL : Event → Option String
  | .Do req => some req.URL
  | _ => none

/-- The value handed to `json.MarshalIndent`. -/
def Event.marshalled : Event → Option GoValue
  | .MarshalIndent v => some v
  | _ => none

/-- The text written to standard output. -/
def Event.written : Event → Option String
  | .Stdout t => some t
  | _ => none

/-- The body handed to `yaml.JSONToYAML`. -/
def Event.converted : Event → Option String
  | .JSONToYAML b => some b
  | _ => none

/-- The URLs of the requests sent with `client.Do`, in order. -/
def requests (o : Outcome) : List String := o.trace.filterMap Event.requestURL

/-- The values handed to `json.MarshalIndent`, in order. -/
def projected (o : Outcome) : List GoValue := o.trace.filterMap Event.marshalled

/-- The texts written to standard output, in order. -/
def stdout (o : Outcome) : List String := o.trace.filterMap Event.written

/-- The bodies handed to `yaml.JSONToYAML`, in order. -/
def rendered (o : Outcome) : List String := o.trace.filterMap Event.converted

/-- The run reaches line 130: the request for `url` is built, decorated, sent and
answered with status 200, and the body `body` decodes to `dat` and to `response`. -/
structure Answered (w : World) (url body : String) (dat : GoMap)
    (response : Option ApplicationsAPIResponse) : Prop where
  built : w.NewRequestErr "GET" url = none
  decorated : w.AddAuthDetailsErr ⟨"GET", url, none⟩ (effectiveTokenPath w) = none
  sent : ∃ res, w.Do ⟨"GET", url, some (effectiveTokenPath w)⟩ = .ok res ∧
    res.StatusCode = 200 ∧ res.Body = .ok body
  decodedMap : w.UnmarshalMap body = .ok dat
  decodedResponse : w.UnmarshalResponse body = .ok response

/-- The events of a run up to line 130. -/
def fetchEvents (w : World) (url body : String) : List Event :=
  [.NewRequest "GET" url, .AddAuthDetails (effectiveTokenPath w),
   .Do ⟨"GET", url, some (effectiveTokenPath w)⟩, .ReadAll, .Unmarshal body, .Unmarshal body]

/-! ## Concrete worlds -/

/-- A world in which every collaborator succeeds: the service answers with `status` and
`body`, which decodes to `dat` and `response`; marshalling names the value it is given. -/
def stubWorld (status : Int) (body : String) (dat : GoMap)
    (response : Option ApplicationsAPIResponse) : World :=
  { GetMesheryCtl := .ok ⟨"http://localhost:9081"⟩
    tokenPath := ""
    GetCurrentAuthToken := "auth.json"
    NewRequestErr := fun _ _ => none
    AddAuthDetailsErr := fun _ _ => none
    Do := fun _ => .ok ⟨status, .ok body⟩
    UnmarshalMap := fun _ => .ok dat
    UnmarshalResponse := fun _ => .ok response
    MarshalIndent := fun v =>
      match v with
      | .mapValue none => .ok "null"
      | .mapValue (some kvs) => .ok ("map:" ++ Join (kvs.map (fun kv => kv.1)) ",")
      | .appStructPtr a => .ok ("app:" ++ a.Name ++ ":" ++ a.ApplicationFile)
    JSONToYAML := fun b => .ok b
    fmtUserID := fun u => match u with | none => "<nil>" | some _ => "0xc000010000"
    fmtLocation := fun _ => "map[]" }

/-- A persisted record with identifier and timestamps present. -/
def sampleApp (name file : String) : MesheryApplication :=
  { ID := some ⟨"3fae2b10-0000-4000-8000-000000000000"⟩
    Name := name
    ApplicationFile := file
    Location := some []
    UserID := some "user-1"
    UpdatedAt := some ⟨"2021-06-02 10:00:00 +0000 UTC"⟩
    CreatedAt := some ⟨"2021-06-01 10:00:00 +0000 UTC"⟩ }

/-- The untyped decoding of one record of a listing. -/
def recordPayload (x : MesheryApplication) : JVal :=
  .obj [("id", match x.ID with | some u => .str u.text | none => .null),
        ("name", .str x.Name),
        ("application_file", .str x.ApplicationFile),
        ("location", match x.Location with | some kvs => .obj kvs | none => .null),
        ("user_id", match x.UserID with | some u => .str u | none => .null),
        ("updated_at", match x.UpdatedAt with | some t => .str t.text | none => .null),
        ("created_at", match x.CreatedAt with | some t => .str t.text | none => .null)]

/-- The untyped decoding of a listing: paging keys, the total count and the records. -/
def listingPayload (count : Nat) (apps : List MesheryApplication) : GoMap :=
  some [("page", .num 0), ("page_size", .num 10), ("total_count", .num (Int.ofNat count)),
        ("applications", .arr (apps.map recordPayload))]

/-- A world whose service answers with the listing of `apps` under the total count
`count`, decoded both ways. -/
def listingWorld (count : Nat) (apps : List MesheryApplication) : World :=
  stubWorld 200 "listing" (listingPayload count apps) (some ⟨count, some apps⟩)

/-- The untyped decoding of a single resource, with a key the typed record does not have. -/
def resourcePayload : GoMap :=
  some [("id", .str "3fae2b10-0000-4000-8000-000000000000"), ("name", .str "my-app"),
        ("application_file", .str "file"), ("revision", .num 7)]

/-- A world whose service answers with a single resource; decoded as a collection it has
total count zero and no record. -/
def resourceWorld : World :=
  stubWorld 200 "resource" resourcePayload (some ⟨0, none⟩)

/-- The record can be marshalled and has identifier and both timestamps present, so
that lines 158 to 169 run to their end on it. -/
def Displayable (w : World) (app : MesheryApplication) : Prop :=
  (∃ b, w.MarshalIndent (.appStructPtr (appStruct.ofApp app)) = .ok b) ∧
  app.ID.isSome ∧ app.UpdatedAt.isSome ∧ app.CreatedAt.isSome

/-- The events of lines 158 to 169 when they run to their end: the marshalling and the
eight lines of the summary. -/
def displayEvents (w : World) (a : appStruct) (id : UUID) (updatedAt createdAt : Time) :
    List Event :=
  [.MarshalIndent (.appStructPtr a),
   .Stdout ("Name: " ++ a.Name ++ "\n"),
   .Stdout ("ID: " ++ id.text ++ "\n"),
   .Stdout ("ApplicationFile: " ++ a.ApplicationFile ++ "\n"),
   .Stdout ("UpdatedAt: " ++ updatedAt.text ++ "\n"),
   .Stdout ("CreatedAt: " ++ createdAt.text ++ "\n"),
   .Stdout ("UserID: " ++ w.fmtUserID a.UserID ++ "\n"),
   .Stdout ("Location: " ++ w.fmtLocation a.Location ++ "\n"),
   .Stdout "#####################\n"]

/-- The records whose name is exactly the search term, in returned order. -/
def named (application : String) (apps : List MesheryApplication) :
    List MesheryApplication :=
  apps.filter (fun x => decide (x.Name = application))

/-- A record decoded from a payload that gives only its name and identifier: every other
field has its zero value, the timestamps being nil pointers. -/
def idOnlyApp (name : String) : MesheryApplication :=
  { ID := some ⟨"3fae2b10-0000-4000-8000-000000000000"⟩
    Name := name
    ApplicationFile := ""
    Location := none
    UserID := none
    UpdatedAt := none
    CreatedAt := none }

/-- The line `fmt.Println` writes at line 169. -/
def separatorLine : String := "#####################\n"

/-- The summary block of a record as lines 162 to 169 write it when its identifier and
timestamps are present: seven labelled lines and the separator line. -/
def summaryLines (w : World) (x : MesheryApplication) : List String :=
  match x.ID, x.UpdatedAt, x.CreatedAt with
  | some id, some updatedAt, some createdAt =>
    ["Name: " ++ x.Name ++ "\n",
     "ID: " ++ id.text ++ "\n",
     "ApplicationFile: " ++ x.ApplicationFile ++ "\n",
     "UpdatedAt: " ++ updatedAt.text ++ "\n",
     "CreatedAt: " ++ createdAt.text ++ "\n",
     "UserID: " ++ w.fmtUserID x.UserID ++ "\n",
     "Location: " ++ w.fmtLocation x.Location ++ "\n",
     separatorLine]
  | _, _, _ => []

/-- The URL of a request built with `http.NewRequest`. -/
def Event.builtURL : Event → Option String
  | .NewRequest _ url => some url
  | _ => none

/-- The URLs of the requests built with `http.NewRequest`, in order. -/
def built (o : Outcome) : List String := o.trace.filterMap Event.builtURL

/-- The events of the steps after the fetch: marshalling, conversion to YAML and writes
to standard output. -/
def Event.isLocal : Event → Bool
  | .MarshalIndent _ => true
  | .JSONToYAML _ => true
  | .Stdout _ => true
  | _ => false

/-- What a run that is given an unsupported output format becomes: the same events, and
the invalid-format error in place of a successful end (line 180). -/
def Outcome.failOnFormat (o : Outcome) : Outcome :=
  ⟨o.trace,
   match o.result with
   | .ok => .err "output-format choice invalid, use [json|yaml]"
   | r => r⟩

/-! ## Basic facts -/

theorem len_eq_zero_iff (s : String) : len s = 0 ↔ s = "" := by
  cases s with
  | mk cs =>
    cases cs with
    | nil => simp [len, String.utf8ByteSize, String.utf8ByteSize.go]
    | cons c cs =>
      have hpos := Char.utf8Size_pos c
      simp [len, String.utf8ByteSize, String.utf8ByteSize.go]
      constructor
      · omega
      · intro h
        exact absurd (congrArg String.data h) (by simp)

theorem append_eq_empty (a b : String) (h : a ++ b = "") : a = "" := by
  have hlen : (a ++ b).length = 0 := by rw [h]; rfl
  rw [String.length_append] at hlen
  have ha : a.length = 0 := by omega
  cases a with
  | mk cs =>
    cases cs with
    | nil => rfl
    | cons c cs => simp [String.length] at ha

theorem Join_cons_eq_empty (a : String) (rest : List String) (sep : String)
    (h : Join (a :: rest) sep = "") : a = "" := by
  cases rest with
  | nil => simpa [Join] using h
  | cons b rest =>
    simp only [Join] at h
    exact append_eq_empty a sep (append_eq_empty (a ++ sep) _ h)

theorem MatchString_ne_empty (a : String) (h : MatchString uuidV4Pattern a = .ok true) :
    a ≠ "" := by
  intro ha
  subst ha
  exact absurd h (by simp [MatchString]; rfl)

theorem Join_ne_empty_of_match (a : String) (rest : List String)
    (h : MatchString uuidV4Pattern a = .ok true) : Join (a :: rest) "%20" ≠ "" :=
  fun hj => MatchString_ne_empty a h (Join_cons_eq_empty a rest "%20" hj)

theorem MatchString_ok (a : String) :
    MatchString uuidV4Pattern a = .ok (matchPieces uuidV4Pattern a.toList) := rfl

/-! ## The pattern and the canonical form -/

theorem hex_accepts (c : Char) : classAccepts hexClass c = isHexDigit c := by
  simp only [classAccepts, hexClass, List.any_cons, List.any_nil, ClassItem.accepts, isHexDigit,
    Bool.or_false]
  cases h1 : (decide ('a'.toNat ≤ c.toNat) && decide (c.toNat ≤ 'f'.toNat)) <;>
  cases h2 : (decide ('A'.toNat ≤ c.toNat) && decide (c.toNat ≤ 'F'.toNat)) <;>
  cases h3 : (decide ('0'.toNat ≤ c.toNat) && decide (c.toNat ≤ '9'.toNat)) <;> rfl

theorem variant_accepts (c : Char) :
    classAccepts variantClass c = (isVariantDigit c || decide (c = '|')) := by
  simp only [classAccepts, variantClass, List.any_cons, List.any_nil, ClassItem.accepts,
    isVariantDigit, Bool.or_false]
  cases decide (c = '8') <;> cases decide (c = '9') <;> cases decide (c = 'a') <;>
  cases decide (c = 'A') <;> cases decide (c = 'b') <;> cases decide (c = 'B') <;>
  cases decide (c = '|') <;> rfl

theorem single_accepts (d c : Char) : classAccepts [.single d] c = decide (c = d) := by
  simp [classAccepts, ClassItem.accepts]

/-- Every canonical version-4 UUID text is accepted by the pattern of line 73. -/
theorem MatchString_of_canonical (s : String) (h : isCanonicalUUIDv4 s = true) :
    MatchString uuidV4Pattern s = .ok true := by
  obtain ⟨cs⟩ := s
  have hlen : cs.length = 36 := by
    simp only [isCanonicalUUIDv4, Bool.and_eq_true, decide_eq_true_eq] at h
    exact h.1.1.1.1.1.1.1.1.1.1.1
  rcases cs with
    _ | ⟨c0, _ | ⟨c1, _ | ⟨c2, _ | ⟨c3, _ | ⟨c4, _ | ⟨c5, _ | ⟨c6, _ | ⟨c7, _ | ⟨c8, _ | ⟨c9, _ | ⟨c10, _ | ⟨c11, _ | ⟨c12, _ | ⟨c13, _ | ⟨c14, _ | ⟨c15, _ | ⟨c16, _ | ⟨c17, _ | ⟨c18, _ | ⟨c19, _ | ⟨c20, _ | ⟨c21, _ | ⟨c22, _ | ⟨c23, _ | ⟨c24, _ | ⟨c25, _ | ⟨c26, _ | ⟨c27, _ | ⟨c28, _ | ⟨c29, _ | ⟨c30, _ | ⟨c31, _ | ⟨c32, _ | ⟨c33, _ | ⟨c34, _ | ⟨c35, _ | ⟨c36, cs⟩⟩⟩⟩⟩⟩⟩⟩⟩⟩⟩⟩⟩⟩⟩⟩⟩⟩⟩⟩⟩⟩⟩⟩⟩⟩⟩⟩⟩⟩⟩⟩⟩⟩⟩⟩⟩
  all_goals first
    | (simp at hlen; done)
    | (simp [isCanonicalUUIDv4] at h
       simp [MatchString, matchPieces, uuidV4Pattern, consume, hex_accepts, variant_accepts,
         single_accepts, h])

/-! ## The stages of a run -/

@[simp] theorem after_trace (evs : List Event) (o : Outcome) :
    (o.after evs).trace = evs ++ o.trace := rfl

@[simp] theorem after_result (evs : List Event) (o : Outcome) :
    (o.after evs).result = o.result := rfl

@[simp] theorem requests_after (evs : List Event) (o : Outcome) :
    requests (o.after evs) = evs.filterMap Event.requestURL ++ requests o := by
  simp [requests]

@[simp] theorem projected_after (evs : List Event) (o : Outcome) :
    projected (o.after evs) = evs.filterMap Event.marshalled ++ projected o := by
  simp [projected]

@[simp] theorem stdout_after (evs : List Event) (o : Outcome) :
    stdout (o.after evs) = evs.filterMap Event.written ++ stdout o := by
  simp [stdout]

@[simp] theorem rendered_after (evs : List Event) (o : Outcome) :
    rendered (o.after evs) = evs.filterMap Event.converted ++ rendered o := by
  simp [rendered]

@[simp] theorem requests_nil (r : Result) : requests ⟨[], r⟩ = [] := rfl

@[simp] theorem projected_nil (r : Result) : projected ⟨[], r⟩ = [] := rfl

@[simp] theorem stdout_nil (r : Result) : stdout ⟨[], r⟩ = [] := rfl

@[simp] theorem rendered_nil (r : Result) : rendered ⟨[], r⟩ = [] := rfl

theorem fetch_head (w : World) (tp url : String) (isID va : Bool) (fmt app : String) :
    (fetch w tp url isID va fmt app).trace.head? = some (.NewRequest "GET" url) := by
  simp [fetch]

theorem fetch_answered (w : World) (url body : String) (dat : GoMap)
    (response : Option ApplicationsAPIResponse) (isID va : Bool) (fmt app : String)
    (h : Answered w url body dat response) :
    fetch w (effectiveTokenPath w) url isID va fmt app =
      (project w isID va fmt app dat response body).after (fetchEvents w url body) := by
  obtain ⟨res, hdo, hstatus, hbody⟩ := h.sent
  simp [fetch, h.built, h.decorated, hdo, hstatus, hbody, h.decodedMap, h.decodedResponse,
    fetchEvents, Outcome.after]

theorem viewStep_no_request (w : World) (a : appStruct) :
    (viewStep w a).1.filterMap Event.requestURL = [] := by
  unfold viewStep
  cases w.MarshalIndent (.appStructPtr a) with
  | error e => simp [Event.requestURL]
  | ok b => cases a.ID <;> cases a.UpdatedAt <;> cases a.CreatedAt <;> simp [Event.requestURL]

theorem viewLoop_no_request (w : World) (r : ApplicationsAPIResponse) (app : String)
    (apps : List MesheryApplication) (body : String) :
    (viewLoop w r app apps body).1.filterMap Event.requestURL = [] := by
  induction apps generalizing body with
  | nil => simp [viewLoop]
  | cons x rest ih =>
    unfold viewLoop
    split
    · simp
    · split
      · have hs := viewStep_no_request w (appStruct.ofApp x)
        split
        · rename_i evs res heq
          rw [heq] at hs
          exact hs
        · rename_i evs b heq
          rw [heq] at hs
          simp only [List.filterMap_append, ih, List.append_nil]
          exact hs
      · exact ih body

theorem render_no_request (w : World) (fmt body : String) :
    requests (render w fmt body) = [] := by
  unfold render
  split
  · cases w.JSONToYAML body <;> rfl
  · split <;> rfl

theorem project_no_request (w : World) (isID va : Bool) (fmt app : String) (dat : GoMap)
    (response : Option ApplicationsAPIResponse) (body : String) :
    requests (project w isID va fmt app dat response body) = [] := by
  unfold project
  split
  · cases w.MarshalIndent (.mapValue dat) <;>
      simp [Event.requestURL, render_no_request]
  · split
    · cases w.MarshalIndent (.mapValue (some [("applications", dat.index "applications")])) <;>
        simp [Event.requestURL, render_no_request]
    · cases response with
      | none => simp
      | some r =>
        dsimp only
        split
        · simp
        · rw [requests_after, viewLoop_no_request]
          cases (viewLoop w r app (r.Applications.getD []) body).2 <;>
            simp [render_no_request]

theorem fetch_requests (w : World) (tp url : String) (isID va : Bool) (fmt app : String)
    (hbuilt : w.NewRequestErr "GET" url = none)
    (hdecorated : w.AddAuthDetailsErr ⟨"GET", url, none⟩ tp = none) :
    requests (fetch w tp url isID va fmt app) = [url] := by
  unfold fetch
  simp only [hbuilt, hdecorated, requests_after]
  cases w.Do ⟨"GET", url, some tp⟩ with
  | error e => simp [Event.requestURL]
  | ok res =>
    dsimp only
    split
    · simp [Event.requestURL]
    · rw [requests_after]
      cases res.Body with
      | error e => simp [Event.requestURL]
      | ok body =>
        dsimp only
        rw [requests_after]
        cases w.UnmarshalMap body with
        | error e => simp [Event.requestURL]
        | ok dat =>
          dsimp only
          rw [requests_after]
          cases w.UnmarshalResponse body with
          | error e => simp [Event.requestURL]
          | ok response => simp [project_no_request, Event.requestURL]

/-! ## The three ways through the planner -/

theorem RunE_byID (w : World) (cfg : MesheryCtlConfig) (a : String) (rest : List String)
    (fmt : String) (hcfg : w.GetMesheryCtl = .ok cfg)
    (hid : MatchString uuidV4Pattern a = .ok true) :
    RunE w (a :: rest) false fmt =
      fetch w (effectiveTokenPath w)
        (cfg.GetBaseMesheryURL ++ "/api/experimental/application/" ++ a)
        true false fmt (Join (a :: rest) "%20") := by
  have hne := Join_ne_empty_of_match a rest hid
  simp [RunE, hcfg, hid, len_eq_zero_iff, hne]

theorem RunE_byName (w : World) (cfg : MesheryCtlConfig) (a : String) (rest : List String)
    (fmt : String) (hcfg : w.GetMesheryCtl = .ok cfg)
    (hid : MatchString uuidV4Pattern a = .ok false)
    (hne : Join (a :: rest) "%20" ≠ "") :
    RunE w (a :: rest) false fmt =
      fetch w (effectiveTokenPath w)
        (cfg.GetBaseMesheryURL ++ "/api/experimental/application?search=" ++
          Join (a :: rest) "%20")
        false false fmt (Join (a :: rest) "%20") := by
  simp [RunE, hcfg, hid, len_eq_zero_iff, hne]

theorem RunE_all (w : World) (cfg : MesheryCtlConfig) (fmt : String)
    (hcfg : w.GetMesheryCtl = .ok cfg) :
    RunE w [] true fmt =
      fetch w (effectiveTokenPath w)
        (cfg.GetBaseMesheryURL ++ "/api/experimental/application?page_size=10000")
        false true fmt "" := by
  simp [RunE, hcfg, len_eq_zero_iff, Join]

theorem RunE_empty_name (w : World) (cfg : MesheryCtlConfig) (a : String)
    (rest : List String) (fmt : String) (hcfg : w.GetMesheryCtl = .ok cfg)
    (he : Join (a :: rest) "%20" = "") :
    RunE w (a :: rest) false fmt =
      ⟨[], .err "[application-name|application-id] not specified, use -a to view all applications"⟩ := by
  simp [RunE, hcfg, len_eq_zero_iff, he, MatchString]

theorem url_byName_ne_byID (base j a : String) :
    base ++ "/api/experimental/application?search=" ++ j ≠
      base ++ "/api/experimental/application/" ++ a := by
  intro h
  have hd := congrArg String.data h
  simp [String.data_append] at hd

theorem render_no_marshal (w : World) (fmt body : String) :
    projected (render w fmt body) = [] := by
  unfold render
  split
  · cases w.JSONToYAML body <;> rfl
  · split <;> rfl

theorem render_no_stdout (w : World) (fmt body : String) :
    stdout (render w fmt body) = [] := by
  unfold render
  split
  · cases w.JSONToYAML body <;> rfl
  · split <;> rfl

theorem fetchEvents_no_marshal (w : World) (url body : String) :
    (fetchEvents w url body).filterMap Event.marshalled = [] := rfl

theorem fetchEvents_no_stdout (w : World) (url body : String) :
    (fetchEvents w url body).filterMap Event.written = [] := rfl

theorem fetchEvents_no_conversion (w : World) (url body : String) :
    (fetchEvents w url body).filterMap Event.converted = [] := rfl

theorem project_byID (w : World) (fmt app : String) (dat : GoMap)
    (response : Option ApplicationsAPIResponse) (body : String) :
    project w true false fmt app dat response body =
      Outcome.after [.MarshalIndent (.mapValue dat)]
        (match w.MarshalIndent (.mapValue dat) with
         | .error err => ⟨[], .err err⟩
         | .ok body1 => render w fmt body1) := by
  simp [project]

theorem project_byID_any (w : World) (va : Bool) (fmt app : String) (dat : GoMap)
    (response : Option ApplicationsAPIResponse) (body : String) :
    project w true va fmt app dat response body =
      Outcome.after [.MarshalIndent (.mapValue dat)]
        (match w.MarshalIndent (.mapValue dat) with
         | .error err => ⟨[], .err err⟩
         | .ok body1 => render w fmt body1) := by
  simp [project]

theorem project_all (w : World) (fmt app : String) (dat : GoMap)
    (response : Option ApplicationsAPIResponse) (body : String) :
    project w false true fmt app dat response body =
      Outcome.after
        [.MarshalIndent (.mapValue (some [("applications", dat.index "applications")]))]
        (match w.MarshalIndent
            (.mapValue (some [("applications", dat.index "applications")])) with
         | .error err => ⟨[], .err err⟩
         | .ok body1 => render w fmt body1) := by
  simp [project]

theorem index_absent (kvs : List (String × JVal)) (key : String)
    (h : ∀ kv ∈ kvs, kv.1 ≠ key) : GoMap.index (some kvs) key = .null := by
  have hf : kvs.find? (fun kv => kv.1 == key) = none := by
    rw [List.find?_eq_none]
    intro kv hkv
    simpa using h kv hkv
  simp [GoMap.index, hf]

theorem viewStep_displayable (w : World) (app : MesheryApplication)
    (h : Displayable w app) :
    ∃ evs b, viewStep w (appStruct.ofApp app) = (evs, .completed b) ∧
      w.MarshalIndent (.appStructPtr (appStruct.ofApp app)) = .ok b ∧
      evs.filterMap Event.marshalled = [.appStructPtr (appStruct.ofApp app)] := by
  obtain ⟨⟨b, hb⟩, hid, hu, hc⟩ := h
  obtain ⟨id, hid⟩ := Option.isSome_iff_exists.mp hid
  obtain ⟨u, hu⟩ := Option.isSome_iff_exists.mp hu
  obtain ⟨c, hc⟩ := Option.isSome_iff_exists.mp hc
  have hid1 : (appStruct.ofApp app).ID = some id := hid
  have hu1 : (appStruct.ofApp app).UpdatedAt = some u := hu
  have hc1 : (appStruct.ofApp app).CreatedAt = some c := hc
  refine ⟨displayEvents w (appStruct.ofApp app) id u c, b, ?_, hb, ?_⟩
  · simp only [viewStep, hb, hid1, hu1, hc1, displayEvents]
  · simp [displayEvents, Event.marshalled]

theorem viewLoop_named (w : World) (r : ApplicationsAPIResponse) (application : String)
    (apps : List MesheryApplication) (body : String)
    (hnn : r.Applications.isNone = false)
    (hgood : ∀ x ∈ apps, x.Name = application → Displayable w x) :
    (viewLoop w r application apps body).1.filterMap Event.marshalled =
        (named application apps).map (fun x => .appStructPtr (appStruct.ofApp x)) ∧
    ∃ b, (viewLoop w r application apps body).2 = .completed b ∧
      match (named application apps).getLast? with
      | some x => w.MarshalIndent (.appStructPtr (appStruct.ofApp x)) = .ok b
      | none => b = body := by
  induction apps generalizing body with
  | nil => exact ⟨rfl, body, rfl, rfl⟩
  | cons x rest ih =>
    have hrest : ∀ y ∈ rest, y.Name = application → Displayable w y :=
      fun y hy => hgood y (List.mem_cons_of_mem x hy)
    by_cases hx : x.Name = application
    · obtain ⟨evs, b1, hstep, hb1, hevs⟩ :=
        viewStep_displayable w x (hgood x (List.mem_cons_self x rest) hx)
      obtain ⟨hm, b, hexit, hlast⟩ := ih b1 hrest
      have hloop : viewLoop w r application (x :: rest) body =
          (evs ++ (viewLoop w r application rest b1).1,
           (viewLoop w r application rest b1).2) := by
        simp [viewLoop, hnn, hx, hstep]
      have hnamed : named application (x :: rest) = x :: named application rest := by
        simp [named, hx]
      rw [hloop, hnamed]
      refine ⟨by simp [hevs, hm], b, hexit, ?_⟩
      rw [List.getLast?_cons]
      cases hl : (named application rest).getLast? with
      | none =>
        rw [hl] at hlast
        simp only [Option.getD_none]
        rw [hlast]
        exact hb1
      | some y =>
        rw [hl] at hlast
        simpa using hlast
    · have hloop : viewLoop w r application (x :: rest) body =
          viewLoop w r application rest body := by
        simp [viewLoop, hnn, hx]
      have hnamed : named application (x :: rest) = named application rest := by
        simp [named, hx]
      rw [hloop, hnamed]
      exact ih body hrest

theorem viewLoop_written_of_not_named (w : World) (r : ApplicationsAPIResponse)
    (application : String) (apps : List MesheryApplication) (body : String)
    (hnn : r.Applications.isNone = false)
    (hnone : named application apps = []) :
    viewLoop w r application apps body = ([], .completed body) := by
  induction apps with
  | nil => rfl
  | cons x rest ih =>
    by_cases hx : x.Name = application
    · simp [named, hx] at hnone
    · have hrest : named application rest = [] := by simpa [named, hx] using hnone
      simp [viewLoop, hnn, hx, ih hrest]

theorem viewStep_no_conversion (w : World) (a : appStruct) :
    (viewStep w a).1.filterMap Event.converted = [] := by
  unfold viewStep
  cases w.MarshalIndent (.appStructPtr a) with
  | error e => simp [Event.converted]
  | ok b => cases a.ID <;> cases a.UpdatedAt <;> cases a.CreatedAt <;> simp [Event.converted]

theorem viewLoop_no_conversion (w : World) (r : ApplicationsAPIResponse) (app : String)
    (apps : List MesheryApplication) (body : String) :
    (viewLoop w r app apps body).1.filterMap Event.converted = [] := by
  induction apps generalizing body with
  | nil => simp [viewLoop]
  | cons x rest ih =>
    unfold viewLoop
    split
    · simp
    · split
      · have hs := viewStep_no_conversion w (appStruct.ofApp x)
        split
        · rename_i evs res heq
          rw [heq] at hs
          exact hs
        · rename_i evs b heq
          rw [heq] at hs
          simp only [List.filterMap_append, ih, List.append_nil]
          exact hs
      · exact ih body

theorem viewLoop_events_of_not_named (w : World) (r : ApplicationsAPIResponse)
    (application : String) (apps : List MesheryApplication) (body : String)
    (hnone : named application apps = []) :
    (viewLoop w r application apps body).1 = [] := by
  induction apps with
  | nil => rfl
  | cons x rest ih =>
    by_cases hx : x.Name = application
    · simp [named, hx] at hnone
    · have hrest : named application rest = [] := by simpa [named, hx] using hnone
      unfold viewLoop
      split
      · rfl
      · simp [hx, ih hrest]

theorem exists_named_of_ne_nil (application : String) (apps : List MesheryApplication)
    (h : named application apps ≠ []) : ∃ x ∈ apps, x.Name = application := by
  obtain ⟨x, hx⟩ := List.exists_mem_of_ne_nil _ h
  have hm := List.mem_filter.mp hx
  exact ⟨x, hm.1, by simpa using hm.2⟩

theorem project_stdout_nonempty (w : World) (isID va : Bool) (fmt app : String) (dat : GoMap)
    (response : Option ApplicationsAPIResponse) (body : String)
    (h : stdout (project w isID va fmt app dat response body) ≠ []) :
    isID = false ∧ va = false ∧
      ∃ r apps x, response = some r ∧ r.TotalCount ≠ 0 ∧ r.Applications = some apps ∧
        x ∈ apps ∧ x.Name = app := by
  cases isID with
  | true =>
    exfalso
    apply h
    rw [project_byID_any]
    cases w.MarshalIndent (.mapValue dat) <;> simp [Event.written, render_no_stdout]
  | false =>
    cases va with
    | true =>
      exfalso
      apply h
      rw [project_all]
      cases w.MarshalIndent
          (.mapValue (some [("applications", dat.index "applications")])) <;>
        simp [Event.written, render_no_stdout]
    | false =>
      refine ⟨rfl, rfl, ?_⟩
      cases response with
      | none => exact absurd (by simp [project]) h
      | some r =>
        by_cases hc : r.TotalCount = 0
        · exact absurd (by simp [project, hc]) h
        · cases happs : r.Applications with
          | none =>
            exfalso
            apply h
            simp [project, hc, happs, viewLoop, render_no_stdout]
          | some apps =>
            by_cases hn : named app apps = []
            · exfalso
              apply h
              have hev := viewLoop_events_of_not_named w r app apps body hn
              simp only [project, hc, happs, Option.getD_some, hev, Bool.false_eq_true,
                if_false, stdout_after, List.filterMap_nil, List.nil_append]
              cases (viewLoop w r app apps body).2 <;> simp [render_no_stdout]
            · obtain ⟨x, hx, hname⟩ := exists_named_of_ne_nil app apps hn
              exact ⟨r, apps, x, rfl, hc, happs, hx, hname⟩

/-- A run of the fetch stage that has written something got as far as line 130: the
request was built, decorated and answered with status 200, and the body was decoded. -/
theorem fetch_stdout_nonempty (w : World) (url : String) (isID va : Bool)
    (fmt app : String)
    (h : stdout (fetch w (effectiveTokenPath w) url isID va fmt app) ≠ []) :
    ∃ body dat response, Answered w url body dat response := by
  unfold fetch at h
  simp only [stdout_after] at h
  cases h1 : w.NewRequestErr "GET" url with
  | some e => simp [h1, Event.written] at h
  | none =>
    simp only [h1, stdout_after] at h
    cases h2 : w.AddAuthDetailsErr ⟨"GET", url, none⟩ (effectiveTokenPath w) with
    | some e => simp [h2, Event.written] at h
    | none =>
      simp only [h2, stdout_after] at h
      cases h3 : w.Do ⟨"GET", url, some (effectiveTokenPath w)⟩ with
      | error e => simp [h3, Event.written] at h
      | ok res =>
        simp only [h3] at h
        by_cases hs : res.StatusCode ≠ 200
        · simp [hs, Event.written] at h
        · simp only [hs, if_false, stdout_after] at h
          cases h4 : res.Body with
          | error e => simp [h4, Event.written] at h
          | ok body =>
            simp only [h4, stdout_after] at h
            cases h5 : w.UnmarshalMap body with
            | error e => simp [h5, Event.written] at h
            | ok dat =>
              simp only [h5, stdout_after] at h
              cases h6 : w.UnmarshalResponse body with
              | error e => simp [h6, Event.written] at h
              | ok response =>
                exact ⟨body, dat, response, h1, h2, ⟨res, h3, not_not.mp hs, h4⟩, h5, h6⟩

theorem fetch_answered_stdout (w : World) (url body : String) (dat : GoMap)
    (response : Option ApplicationsAPIResponse) (isID va : Bool) (fmt app : String)
    (h : Answered w url body dat response) :
    stdout (fetch w (effectiveTokenPath w) url isID va fmt app) =
      stdout (project w isID va fmt app dat response body) := by
  rw [fetch_answered w url body dat response isID va fmt app h, stdout_after,
    fetchEvents_no_stdout, List.nil_append]

theorem fetch_answered_result (w : World) (url body : String) (dat : GoMap)
    (response : Option ApplicationsAPIResponse) (isID va : Bool) (fmt app : String)
    (h : Answered w url body dat response) :
    (fetch w (effectiveTokenPath w) url isID va fmt app).result =
      (project w isID va fmt app dat response body).result := by
  rw [fetch_answered w url body dat response isID va fmt app h, after_result]

theorem render_err (w : World) (fmt body msg : String)
    (h : (render w fmt body).result = .err msg) :
    msg = "output-format choice invalid, use [json|yaml]" ∨
      ∃ e, w.JSONToYAML body = .error e ∧ msg = Wrap e "failed to convert json to yaml" := by
  unfold render at h
  split at h
  · cases hy : w.JSONToYAML body with
    | error e =>
      rw [hy] at h
      exact Or.inr ⟨e, rfl, (Result.err.inj h).symm⟩
    | ok b =>
      rw [hy] at h
      simp at h
  · split at h
    · exact Or.inl (Result.err.inj h).symm
    · simp at h

theorem viewStep_returned_err (w : World) (a : appStruct) (msg : String)
    (h : (viewStep w a).2 = .returned (.err msg)) :
    w.MarshalIndent (.appStructPtr a) = .error msg := by
  unfold viewStep at h
  cases hm : w.MarshalIndent (.appStructPtr a) with
  | error e =>
    rw [hm] at h
    simp at h
    rw [h]
  | ok b =>
    rw [hm] at h
    cases hid : a.ID <;> cases hu : a.UpdatedAt <;> cases hc : a.CreatedAt <;>
      simp [hid, hu, hc] at h

/-- When the loop is left by returning an error, the error is the one of marshalling a
record named as the search term. -/
theorem viewLoop_returned_err (w : World) (r : ApplicationsAPIResponse) (application : String)
    (apps : List MesheryApplication) (body msg : String)
    (hnn : r.Applications.isNone = false)
    (h : (viewLoop w r application apps body).2 = .returned (.err msg)) :
    ∃ y ∈ apps, y.Name = application ∧
      w.MarshalIndent (.appStructPtr (appStruct.ofApp y)) = .error msg := by
  induction apps generalizing body with
  | nil => simp [viewLoop] at h
  | cons x rest ih =>
    by_cases hx : x.Name = application
    · cases hstep : viewStep w (appStruct.ofApp x) with
      | mk evs exit =>
        cases exit with
        | returned res =>
          have hloop : (viewLoop w r application (x :: rest) body).2 = .returned res := by
            rw [viewLoop]
            simp only [hnn, hx, Bool.false_eq_true, if_false, if_true, hstep]
          rw [hloop] at h
          have hres : res = .err msg := LoopExit.returned.inj h
          subst hres
          have hs : (viewStep w (appStruct.ofApp x)).2 = .returned (.err msg) := by
            rw [hstep]
          exact ⟨x, List.mem_cons_self x rest, hx, viewStep_returned_err w _ msg hs⟩
        | completed b1 =>
          have hloop : (viewLoop w r application (x :: rest) body).2 =
              (viewLoop w r application rest b1).2 := by
            rw [viewLoop]
            simp only [hnn, hx, Bool.false_eq_true, if_false, if_true, hstep]
          rw [hloop] at h
          obtain ⟨y, hy, hname, hm⟩ := ih b1 h
          exact ⟨y, List.mem_cons_of_mem x hy, hname, hm⟩
    · have hloop : viewLoop w r application (x :: rest) body =
          viewLoop w r application rest body := by
        simp [viewLoop, hnn, hx]
      rw [hloop] at h
      obtain ⟨y, hy, hname, hm⟩ := ih body h
      exact ⟨y, List.mem_cons_of_mem x hy, hname, hm⟩

theorem viewStep_not_returned_ok (w : World) (a : appStruct) :
    (viewStep w a).2 ≠ .returned .ok := by
  unfold viewStep
  cases w.MarshalIndent (.appStructPtr a) with
  | error e => simp
  | ok b => cases a.ID <;> cases a.UpdatedAt <;> cases a.CreatedAt <;> simp

/-- The loop is never left by returning `nil`: it returns an error, panics, or runs to
its end. -/
theorem viewLoop_not_returned_ok (w : World) (r : ApplicationsAPIResponse) (app : String)
    (apps : List MesheryApplication) (body : String) :
    (viewLoop w r app apps body).2 ≠ .returned .ok := by
  induction apps generalizing body with
  | nil => simp [viewLoop]
  | cons x rest ih =>
    unfold viewLoop
    split
    · simp
    · split
      · have hs := viewStep_not_returned_ok w (appStruct.ofApp x)
        split
        · rename_i evs res heq
          rw [heq] at hs
          exact hs
        · rename_i evs b heq
          exact ih b
      · exact ih body

theorem failOnFormat_after (evs : List Event) (o : Outcome) :
    (o.after evs).failOnFormat = (o.failOnFormat).after evs := rfl

theorem render_unsupported (w : World) (fmt body : String) (hj : fmt ≠ "json")
    (hy : fmt ≠ "yaml") : render w fmt body = (render w "json" body).failOnFormat := by
  simp [render, hj, hy, Outcome.failOnFormat]

theorem project_unsupported (w : World) (isID va : Bool) (fmt app : String) (dat : GoMap)
    (response : Option ApplicationsAPIResponse) (body : String) (hj : fmt ≠ "json")
    (hy : fmt ≠ "yaml") :
    project w isID va fmt app dat response body =
      (project w isID va "json" app dat response body).failOnFormat := by
  unfold project
  split
  · rw [failOnFormat_after]
    cases w.MarshalIndent (.mapValue dat) with
    | error e => rfl
    | ok b => simp only [render_unsupported w fmt b hj hy]
  · split
    · rw [failOnFormat_after]
      cases w.MarshalIndent (.mapValue (some [("applications", dat.index "applications")])) with
      | error e => rfl
      | ok b => simp only [render_unsupported w fmt b hj hy]
    · cases response with
      | none => rfl
      | some r =>
        dsimp only
        split
        · rfl
        · rw [failOnFormat_after]
          have hret := viewLoop_not_returned_ok w r app (r.Applications.getD []) body
          cases hexit : (viewLoop w r app (r.Applications.getD []) body).2 with
          | returned res =>
            cases res with
            | ok => exact absurd hexit hret
            | err e => rfl
            | panic e => rfl
          | completed b => simp only [render_unsupported w fmt b hj hy]

theorem fetch_unsupported (w : World) (tp url : String) (isID va : Bool) (fmt app : String)
    (hj : fmt ≠ "json") (hy : fmt ≠ "yaml") :
    fetch w tp url isID va fmt app = (fetch w tp url isID va "json" app).failOnFormat := by
  unfold fetch
  rw [failOnFormat_after]
  cases w.NewRequestErr "GET" url with
  | some e => rfl
  | none =>
    dsimp only
    rw [failOnFormat_after]
    cases w.AddAuthDetailsErr ⟨"GET", url, none⟩ tp with
    | some e => rfl
    | none =>
      dsimp only
      rw [failOnFormat_after]
      cases w.Do ⟨"GET", url, some tp⟩ with
      | error e => rfl
      | ok res =>
        dsimp only
        split
        · rfl
        · rw [failOnFormat_after]
          cases res.Body with
          | error e => rfl
          | ok body =>
            dsimp only
            rw [failOnFormat_after]
            cases w.UnmarshalMap body with
            | error e => rfl
            | ok dat =>
              dsimp only
              rw [failOnFormat_after]
              cases w.UnmarshalResponse body with
              | error e => rfl
              | ok response =>
                dsimp only
                rw [project_unsupported w isID va fmt app dat response body hj hy]

theorem RunE_unsupported (w : World) (args : List String) (va : Bool) (fmt : String)
    (hj : fmt ≠ "json") (hy : fmt ≠ "yaml") :
    RunE w args va fmt = (RunE w args va "json").failOnFormat := by
  unfold RunE
  cases w.GetMesheryCtl with
  | error e => rfl
  | ok cfg =>
    dsimp only
    cases args with
    | nil =>
      dsimp only
      split
      · split
        · exact fetch_unsupported _ _ _ _ _ _ _ hj hy
        · rfl
      · split
        · exact fetch_unsupported _ _ _ _ _ _ _ hj hy
        · exact fetch_unsupported _ _ _ _ _ _ _ hj hy
    | cons a rest =>
      dsimp only
      cases va with
      | true => rfl
      | false =>
        simp only [MatchString, Bool.false_eq_true, if_false]
        split
        · rfl
        · split
          · exact fetch_unsupported _ _ _ _ _ _ _ hj hy
          · exact fetch_unsupported _ _ _ _ _ _ _ hj hy

theorem render_trace_local (w : World) (fmt body : String) :
    ∀ e ∈ (render w fmt body).trace, e.isLocal = true := by
  unfold render
  split
  · cases w.JSONToYAML body <;> simp [Event.isLocal]
  · split <;> simp

theorem viewStep_trace_local (w : World) (a : appStruct) :
    ∀ e ∈ (viewStep w a).1, e.isLocal = true := by
  unfold viewStep
  cases w.MarshalIndent (.appStructPtr a) with
  | error e => simp [Event.isLocal]
  | ok b => cases a.ID <;> cases a.UpdatedAt <;> cases a.CreatedAt <;> simp [Event.isLocal]

theorem viewLoop_trace_local (w : World) (r : ApplicationsAPIResponse) (app : String)
    (apps : List MesheryApplication) (body : String) :
    ∀ e ∈ (viewLoop w r app apps body).1, e.isLocal = true := by
  induction apps generalizing body with
  | nil => simp [viewLoop]
  | cons x rest ih =>
    unfold viewLoop
    split
    · simp
    · split
      · have hs := viewStep_trace_local w (appStruct.ofApp x)
        split
        · rename_i evs res heq
          rw [heq] at hs
          exact hs
        · rename_i evs b heq
          rw [heq] at hs
          intro e he
          rcases List.mem_append.mp he with h | h
          · exact hs e h
          · exact ih b e h
      · exact ih body

theorem project_trace_local (w : World) (isID va : Bool) (fmt app : String) (dat : GoMap)
    (response : Option ApplicationsAPIResponse) (body : String) :
    ∀ e ∈ (project w isID va fmt app dat response body).trace, e.isLocal = true := by
  unfold project
  split
  · intro e he
    rw [after_trace] at he
    rcases List.mem_append.mp he with h | h
    · simp at h
      subst h
      rfl
    · cases hm : w.MarshalIndent (.mapValue dat) with
      | error err => simp [hm] at h
      | ok b =>
        rw [hm] at h
        exact render_trace_local w fmt b e h
  · split
    · intro e he
      rw [after_trace] at he
      rcases List.mem_append.mp he with h | h
      · simp at h
        subst h
        rfl
      · cases hm : w.MarshalIndent
            (.mapValue (some [("applications", dat.index "applications")])) with
        | error err => simp [hm] at h
        | ok b =>
          rw [hm] at h
          exact render_trace_local w fmt b e h
    · cases response with
      | none => simp
      | some r =>
        dsimp only
        split
        · simp
        · intro e he
          rw [after_trace] at he
          rcases List.mem_append.mp he with h | h
          · exact viewLoop_trace_local w r app _ body e h
          · cases hx : (viewLoop w r app (r.Applications.getD []) body).2 with
            | returned res => simp [hx] at h
            | completed b =>
              rw [hx] at h
              exact render_trace_local w fmt b e h

theorem builtURL_of_local (e : Event) (h : e.isLocal = true) : e.builtURL = none := by
  cases e <;> simp [Event.isLocal] at h <;> rfl

theorem project_no_built (w : World) (isID va : Bool) (fmt app : String) (dat : GoMap)
    (response : Option ApplicationsAPIResponse) (body : String) :
    built (project w isID va fmt app dat response body) = [] := by
  unfold built
  rw [List.filterMap_eq_nil_iff]
  intro e he
  exact builtURL_of_local e (project_trace_local w isID va fmt app dat response body e he)

@[simp] theorem built_after (evs : List Event) (o : Outcome) :
    built (o.after evs) = evs.filterMap Event.builtURL ++ built o := by
  simp [built]

@[simp] theorem built_nil (r : Result) : built ⟨[], r⟩ = [] := rfl

/-- Exactly one request is built by the fetch stage, for the URL it is given. -/
theorem fetch_built (w : World) (tp url : String) (isID va : Bool) (fmt app : String) :
    built (fetch w tp url isID va fmt app) = [url] := by
  unfold fetch
  rw [built_after]
  cases w.NewRequestErr "GET" url with
  | some e => simp [Event.builtURL]
  | none =>
    dsimp only
    rw [built_after]
    cases w.AddAuthDetailsErr ⟨"GET", url, none⟩ tp with
    | some e => simp [Event.builtURL]
    | none =>
      dsimp only
      rw [built_after]
      cases w.Do ⟨"GET", url, some tp⟩ with
      | error e => simp [Event.builtURL]
      | ok res =>
        dsimp only
        split
        · simp [Event.builtURL]
        · rw [built_after]
          cases res.Body with
          | error e => simp [Event.builtURL]
          | ok body =>
            dsimp only
            rw [built_after]
            cases w.UnmarshalMap body with
            | error e => simp [Event.builtURL]
            | ok dat =>
              dsimp only
              rw [built_after]
              cases w.UnmarshalResponse body with
              | error e => simp [Event.builtURL]
              | ok response => simp [project_no_built, Event.builtURL]

/-- The fetch stage sends no request when building or decorating it fails, and one
request, to the URL it is given, otherwise. -/
theorem fetch_requests_cases (w : World) (tp url : String) (isID va : Bool)
    (fmt app : String) :
    requests (fetch w tp url isID va fmt app) = [] ∨
      requests (fetch w tp url isID va fmt app) = [url] := by
  cases hb : w.NewRequestErr "GET" url with
  | some e =>
    left
    simp [fetch, hb, Event.requestURL]
  | none =>
    cases hd : w.AddAuthDetailsErr ⟨"GET", url, none⟩ tp with
    | some e =>
      left
      simp [fetch, hb, hd, Event.requestURL]
    | none =>
      right
      exact fetch_requests w tp url isID va fmt app hb hd

theorem Join_two_ne_empty (a b : String) (rest : List String) :
    Join (a :: b :: rest) "%20" ≠ "" := by
  intro h
  simp only [Join] at h
  have h1 := append_eq_empty (a ++ "%20") _ h
  have hlen : (a ++ "%20").length = 0 := by rw [h1]; rfl
  rw [String.length_append] at hlen
  have h3 : ("%20" : String).length = 3 := by decide
  omega

theorem viewStep_marshalled (w : World) (a : appStruct) :
    (viewStep w a).1.filterMap Event.marshalled = [.appStructPtr a] := by
  unfold viewStep
  cases w.MarshalIndent (.appStructPtr a) with
  | error e => simp [Event.marshalled]
  | ok b => cases a.ID <;> cases a.UpdatedAt <;> cases a.CreatedAt <;> simp [Event.marshalled]

/-- Every value marshalled by the loop is the view record of a record of the collection
whose name is exactly the search term. -/
theorem viewLoop_marshalled_named (w : World) (r : ApplicationsAPIResponse)
    (application : String) (apps : List MesheryApplication) (body : String) :
    ∀ v ∈ (viewLoop w r application apps body).1.filterMap Event.marshalled,
      ∃ x ∈ apps, x.Name = application ∧ v = .appStructPtr (appStruct.ofApp x) := by
  induction apps generalizing body with
  | nil => simp [viewLoop]
  | cons x rest ih =>
    unfold viewLoop
    split
    · simp
    · split
      · rename_i hx
        have hs := viewStep_marshalled w (appStruct.ofApp x)
        split
        · rename_i evs res heq
          rw [heq] at hs
          intro v hv
          simp only [hs, List.mem_singleton] at hv
          exact ⟨x, List.mem_cons_self x rest, hx, hv⟩
        · rename_i evs b heq
          rw [heq] at hs
          intro v hv
          simp only [List.filterMap_append, hs, List.mem_append, List.mem_singleton] at hv
          rcases hv with hv | hv
          · exact ⟨x, List.mem_cons_self x rest, hx, hv⟩
          · obtain ⟨y, hy, hname, hval⟩ := ih b v hv
            exact ⟨y, List.mem_cons_of_mem x hy, hname, hval⟩
      · intro v hv
        obtain ⟨y, hy, hname, hval⟩ := ih body v hv
        exact ⟨y, List.mem_cons_of_mem x hy, hname, hval⟩

theorem named_eq_nil (application : String) (apps : List MesheryApplication)
    (h : ∀ x ∈ apps, x.Name ≠ application) : named application apps = [] := by
  unfold named
  rw [List.filter_eq_nil_iff]
  intro x hx
  simpa using h x hx

/-- The by-name branch of lines 139 to 173 on a decoded collection with a non-zero total
count: the events of the loop, then the output-format step or the way the loop was left. -/
theorem project_byName (w : World) (fmt app : String) (dat : GoMap)
    (r : ApplicationsAPIResponse) (body : String) (hcount : r.TotalCount ≠ 0) :
    project w false false fmt app dat (some r) body =
      Outcome.after (viewLoop w r app (r.Applications.getD []) body).1
        (match (viewLoop w r app (r.Applications.getD []) body).2 with
         | .returned res => ⟨[], res⟩
         | .completed body1 => render w fmt body1) := by
  simp [project, hcount]

theorem viewStep_written (w : World) (app : MesheryApplication) (h : Displayable w app) :
    (viewStep w (appStruct.ofApp app)).1.filterMap Event.written = summaryLines w app ∧
    ∃ b, (viewStep w (appStruct.ofApp app)).2 = .completed b := by
  obtain ⟨⟨b, hb⟩, hid, hu, hc⟩ := h
  obtain ⟨id, hid⟩ := Option.isSome_iff_exists.mp hid
  obtain ⟨u, hu⟩ := Option.isSome_iff_exists.mp hu
  obtain ⟨c, hc⟩ := Option.isSome_iff_exists.mp hc
  have hid1 : (appStruct.ofApp app).ID = some id := hid
  have hu1 : (appStruct.ofApp app).UpdatedAt = some u := hu
  have hc1 : (appStruct.ofApp app).CreatedAt = some c := hc
  constructor
  · simp only [viewStep, hb, hid1, hu1, hc1, summaryLines, hid, hu, hc]
    simp [Event.written, appStruct.ofApp, separatorLine]
  · exact ⟨b, by simp only [viewStep, hb, hid1, hu1, hc1]⟩

/-- The loop writes the summary block of every record named as the search term, in
returned order, when each of them can be displayed. -/
theorem viewLoop_written (w : World) (r : ApplicationsAPIResponse) (application : String)
    (apps : List MesheryApplication) (body : String)
    (hnn : r.Applications.isNone = false)
    (hgood : ∀ x ∈ apps, x.Name = application → Displayable w x) :
    (viewLoop w r application apps body).1.filterMap Event.written =
      (named application apps).flatMap (summaryLines w) := by
  induction apps generalizing body with
  | nil => rfl
  | cons x rest ih =>
    have hrest : ∀ y ∈ rest, y.Name = application → Displayable w y :=
      fun y hy => hgood y (List.mem_cons_of_mem x hy)
    by_cases hx : x.Name = application
    · obtain ⟨hw, b1, hexit⟩ := viewStep_written w x (hgood x (List.mem_cons_self x rest) hx)
      have hstep : viewStep w (appStruct.ofApp x) =
          ((viewStep w (appStruct.ofApp x)).1, .completed b1) := by
        rw [← hexit]
      have hloop : viewLoop w r application (x :: rest) body =
          ((viewStep w (appStruct.ofApp x)).1 ++ (viewLoop w r application rest b1).1,
           (viewLoop w r application rest b1).2) := by
        rw [viewLoop]
        simp only [hnn, hx, Bool.false_eq_true, if_false, if_true]
        rw [hstep]
      have hnamed : named application (x :: rest) = x :: named application rest := by
        simp [named, hx]
      rw [hloop, hnamed, List.flatMap_cons]
      simp only [List.filterMap_append, hw, ih b1 hrest]
    · have hloop : viewLoop w r application (x :: rest) body =
          viewLoop w r application rest body := by
        simp [viewLoop, hnn, hx]
      have hnamed : named application (x :: rest) = named application rest := by
        simp [named, hx]
      rw [hloop, hnamed]
      exact ih body hrest

theorem label_ne_separator (label text : String) (c : Char) (cs : List Char)
    (hlabel : label.data = c :: cs) (hc : c ≠ '#') :
    label ++ text ++ "\n" ≠ separatorLine := by
  intro h
  have hd := congrArg String.data h
  simp [String.data_append, hlabel, separatorLine] at hd
  exact hc hd.1

theorem summaryLines_count (w : World) (x : MesheryApplication)
    (hid : x.ID.isSome) (hu : x.UpdatedAt.isSome) (hc : x.CreatedAt.isSome) :
    (summaryLines w x).count separatorLine = 1 := by
  obtain ⟨id, hid⟩ := Option.isSome_iff_exists.mp hid
  obtain ⟨u, hu⟩ := Option.isSome_iff_exists.mp hu
  obtain ⟨c, hc⟩ := Option.isSome_iff_exists.mp hc
  simp only [summaryLines, hid, hu, hc]
  have h1 := label_ne_separator "Name: " x.Name 'N' _ rfl (by decide)
  have h2 := label_ne_separator "ID: " id.text 'I' _ rfl (by decide)
  have h3 := label_ne_separator "ApplicationFile: " x.ApplicationFile 'A' _ rfl (by decide)
  have h4 := label_ne_separator "UpdatedAt: " u.text 'U' _ rfl (by decide)
  have h5 := label_ne_separator "CreatedAt: " c.text 'C' _ rfl (by decide)
  have h6 := label_ne_separator "UserID: " (w.fmtUserID x.UserID) 'U' _ rfl (by decide)
  have h7 := label_ne_separator "Location: " (w.fmtLocation x.Location) 'L' _ rfl (by decide)
  simp [List.count_cons, h1, h2, h3, h4, h5, h6, h7]

theorem summaries_count (w : World) (l : List MesheryApplication)
    (h : ∀ x ∈ l, x.ID.isSome ∧ x.UpdatedAt.isSome ∧ x.CreatedAt.isSome) :
    (l.flatMap (summaryLines w)).count separatorLine = l.length := by
  induction l with
  | nil => rfl
  | cons x rest ih =>
    obtain ⟨hid, hu, hc⟩ := h x (List.mem_cons_self x rest)
    rw [List.flatMap_cons, List.count_append, summaryLines_count w x hid hu hc,
      ih (fun y hy => h y (List.mem_cons_of_mem x hy)), List.length_cons]
    omega

/-- In the by-name branch everything written is written by the loop. -/
theorem project_byName_stdout (w : World) (fmt app : String) (dat : GoMap)
    (r : ApplicationsAPIResponse) (body : String) (hcount : r.TotalCount ≠ 0) :
    stdout (project w false false fmt app dat (some r) body) =
      (viewLoop w r app (r.Applications.getD []) body).1.filterMap Event.written := by
  rw [project_byName w fmt app dat r body hcount, stdout_after]
  cases (viewLoop w r app (r.Applications.getD []) body).2 with
  | returned res => simp
  | completed b => simp [render_no_stdout]

theorem render_no_panic (w : World) (fmt body msg : String) :
    (render w fmt body).result ≠ .panic msg := by
  unfold render
  split
  · cases w.JSONToYAML body <;> simp
  · split <;> simp

theorem viewStep_no_panic (w : World) (x : MesheryApplication) (msg : String)
    (hid : x.ID.isSome) (hu : x.UpdatedAt.isSome) (hc : x.CreatedAt.isSome) :
    (viewStep w (appStruct.ofApp x)).2 ≠ .returned (.panic msg) := by
  obtain ⟨id, hid⟩ := Option.isSome_iff_exists.mp hid
  obtain ⟨u, hu⟩ := Option.isSome_iff_exists.mp hu
  obtain ⟨c, hc⟩ := Option.isSome_iff_exists.mp hc
  have hid1 : (appStruct.ofApp x).ID = some id := hid
  have hu1 : (appStruct.ofApp x).UpdatedAt = some u := hu
  have hc1 : (appStruct.ofApp x).CreatedAt = some c := hc
  unfold viewStep
  cases w.MarshalIndent (.appStructPtr (appStruct.ofApp x)) with
  | error e => simp
  | ok b => simp [hid1, hu1, hc1]

/-- The loop does not panic when every record named as the search term has its
identifier and both timestamps. -/
theorem viewLoop_no_panic (w : World) (r : ApplicationsAPIResponse) (application : String)
    (apps : List MesheryApplication) (body msg : String)
    (hgood : ∀ x ∈ apps, x.Name = application →
      x.ID.isSome ∧ x.UpdatedAt.isSome ∧ x.CreatedAt.isSome) :
    (viewLoop w r application apps body).2 ≠ .returned (.panic msg) := by
  induction apps generalizing body with
  | nil => simp [viewLoop]
  | cons x rest ih =>
    have hrest : ∀ y ∈ rest, y.Name = application →
        y.ID.isSome ∧ y.UpdatedAt.isSome ∧ y.CreatedAt.isSome :=
      fun y hy => hgood y (List.mem_cons_of_mem x hy)
    unfold viewLoop
    split
    · simp
    · split
      · rename_i hx
        obtain ⟨hid, hu, hc⟩ := hgood x (List.mem_cons_self x rest) hx
        have hs := viewStep_no_panic w x msg hid hu hc
        split
        · rename_i evs res heq
          rw [heq] at hs
          exact hs
        · rename_i evs b heq
          exact ih b hrest
      · exact ih body hrest

theorem project_byName_no_panic (w : World) (fmt app : String) (dat : GoMap)
    (r : ApplicationsAPIResponse) (body msg : String)
    (hgood : ∀ x ∈ r.Applications.getD [], x.Name = app →
      x.ID.isSome ∧ x.UpdatedAt.isSome ∧ x.CreatedAt.isSome) :
    (project w false false fmt app dat (some r) body).result ≠ .panic msg := by
  by_cases hcount : r.TotalCount = 0
  · simp [project, hcount]
  · rw [project_byName w fmt app dat r body hcount, after_result]
    have hl := viewLoop_no_panic w r app (r.Applications.getD []) body msg hgood
    cases hx : (viewLoop w r app (r.Applications.getD []) body).2 with
    | returned res =>
      rw [hx] at hl
      intro h
      apply hl
      rw [← h]
    | completed b => exact render_no_panic w fmt b msg

/-- The errors the by-name branch can return once the count is known to be non-zero: the
invalid-format error, a failed conversion to YAML, or a failed marshalling of a record
named as the search term. -/
theorem project_byName_err (w : World) (fmt app : String) (dat : GoMap)
    (r : ApplicationsAPIResponse) (apps : List MesheryApplication) (body msg : String)
    (hcount : r.TotalCount ≠ 0) (happs : r.Applications = some apps)
    (h : (project w false false fmt app dat (some r) body).result = .err msg) :
    msg = "output-format choice invalid, use [json|yaml]" ∨
    (∃ b e, w.JSONToYAML b = .error e ∧ msg = Wrap e "failed to convert json to yaml") ∨
    (∃ y ∈ apps, y.Name = app ∧
      w.MarshalIndent (.appStructPtr (appStruct.ofApp y)) = .error msg) := by
  have hnn : r.Applications.isNone = false := by rw [happs]; rfl
  rw [project_byName w fmt app dat r body hcount, after_result, happs] at h
  simp only [Option.getD_some] at h
  cases hexit : (viewLoop w r app apps body).2 with
  | returned res =>
    rw [hexit] at h
    have hres : res = .err msg := h
    subst hres
    exact Or.inr (Or.inr (viewLoop_returned_err w r app apps body msg hnn hexit))
  | completed b =>
    rw [hexit] at h
    rcases render_err w fmt b msg h with h1 | ⟨e, he, hmsg⟩
    · exact Or.inl h1
    · exact Or.inr (Or.inl ⟨b, e, he, hmsg⟩)

/-- What a request was answered with is determined by the world and the URL: two
descriptions of the answer to the same request agree on the body and on both decodings. -/
theorem Answered_unique (w : World) (url b1 b2 : String) (d1 d2 : GoMap)
    (r1 r2 : Option ApplicationsAPIResponse)
    (h1 : Answered w url b1 d1 r1) (h2 : Answered w url b2 d2 r2) :
    b1 = b2 ∧ d1 = d2 ∧ r1 = r2 := by
  obtain ⟨res1, hdo1, _, hb1⟩ := h1.sent
  obtain ⟨res2, hdo2, _, hb2⟩ := h2.sent
  have hres : res1 = res2 := by
    rw [hdo1] at hdo2
    exact Except.ok.inj hdo2
  subst hres
  have hb : b1 = b2 := by
    rw [hb1] at hb2
    exact Except.ok.inj hb2
  subst hb
  refine ⟨rfl, ?_, ?_⟩
  · have hd := h1.decodedMap
    rw [h2.decodedMap] at hd
    exact (Except.ok.inj hd).symm
  · have hr := h1.decodedResponse
    rw [h2.decodedResponse] at hr
    exact (Except.ok.inj hr).symm

/-! ## The claims -/

/-- C1, evaluated on the code: the pattern of line 73 accepts a string whose variant
position holds a vertical bar, which is not a canonical version-4 UUID. -/
theorem C1_bar_accepted :
    MatchString uuidV4Pattern "00000000-0000-4000-|000-000000000000" = .ok true ∧
    isCanonicalUUIDv4 "00000000-0000-4000-|000-000000000000" = false :=
  ⟨rfl, by decide⟩

/-- C2: with a non-empty argument list and the select-all flag set the command fails
with the conflicting-selectors error, and the run has no event: no request was built
or sent and nothing was written. -/
theorem C2_conflicting_selectors (w : World) (cfg : MesheryCtlConfig) (args : List String)
    (fmt : String) (hcfg : w.GetMesheryCtl = .ok cfg) (hargs : args ≠ []) :
    RunE w args true fmt =
      ⟨[], .err "-a cannot be used when [application-name|application-id] is specified"⟩ := by
  cases args with
  | nil => exact absurd rfl hargs
  | cons a rest => simp [RunE, hcfg]

/-- C2 at two arguments, the first one UUID-shaped, with select-all set. -/
theorem C2_conflicting_selectors_witness :
    (["3fae2b10-0000-4000-8000-000000000000", "x"] : List String) ≠ [] ∧
    RunE (stubWorld 200 "null" none none) ["3fae2b10-0000-4000-8000-000000000000", "x"]
        true "yaml" =
      ⟨[], .err "-a cannot be used when [application-name|application-id] is specified"⟩ :=
  ⟨by simp, C2_conflicting_selectors (stubWorld 200 "null" none none) ⟨"http://localhost:9081"⟩
    _ "yaml" rfl (by simp)⟩

/-- C3: with no argument and the select-all flag unset the command fails with the
no-selector error whatever the output format, and the run has no event: the fetch
collaborator was not invoked and nothing was written. -/
theorem C3_no_selector (w : World) (cfg : MesheryCtlConfig) (fmt : String)
    (hcfg : w.GetMesheryCtl = .ok cfg) :
    RunE w [] false fmt =
      ⟨[], .err "[application-name|application-id] not specified, use -a to view all applications"⟩ ∧
    requests (RunE w [] false fmt) = [] ∧ stdout (RunE w [] false fmt) = [] := by
  have h : RunE w [] false fmt =
      ⟨[], .err "[application-name|application-id] not specified, use -a to view all applications"⟩ := by
    simp [RunE, hcfg, len_eq_zero_iff, Join]
  rw [h]
  exact ⟨rfl, rfl, rfl⟩

/-- C3 at the output format "xml". -/
theorem C3_no_selector_witness :
    RunE (stubWorld 200 "null" none none) [] false "xml" =
      ⟨[], .err "[application-name|application-id] not specified, use -a to view all applications"⟩ ∧
    requests (RunE (stubWorld 200 "null" none none) [] false "xml") = [] ∧
    stdout (RunE (stubWorld 200 "null" none none) [] false "xml") = [] :=
  C3_no_selector (stubWorld 200 "null" none none) ⟨"http://localhost:9081"⟩ "xml" rfl

/-- C4 fails as stated: the argument list holding one empty string is non-empty, its
classification is not-identifier and select-all is unset, yet the command fails with
the no-selector error and builds no request. -/
theorem C4_empty_string_argument :
    ([""] : List String) ≠ [] ∧
    MatchString uuidV4Pattern "" = .ok false ∧
    MatchString uuidV4Pattern (Join [""] "%20") = .ok false ∧
    RunE (stubWorld 200 "null" none none) [""] false "json" =
      ⟨[], .err "[application-name|application-id] not specified, use -a to view all applications"⟩ :=
  ⟨by simp, rfl, rfl, rfl⟩

/-- C4 as amended: when the joined arguments are a non-empty text, select-all is unset
and the first argument is not UUID-shaped, the planner does not fail: the first event
of the run builds the request for `<base>/api/experimental/application?search=<joined>`,
and when the request is built and decorated without error exactly one request is
sent, to that URL. -/
theorem C4_byName_request (w : World) (cfg : MesheryCtlConfig) (a : String)
    (rest : List String) (fmt : String) (hcfg : w.GetMesheryCtl = .ok cfg)
    (hid : MatchString uuidV4Pattern a = .ok false)
    (hne : Join (a :: rest) "%20" ≠ "") :
    (RunE w (a :: rest) false fmt).trace.head? =
      some (.NewRequest "GET" (cfg.GetBaseMesheryURL ++
        "/api/experimental/application?search=" ++ Join (a :: rest) "%20")) ∧
    (w.NewRequestErr "GET" (cfg.GetBaseMesheryURL ++
        "/api/experimental/application?search=" ++ Join (a :: rest) "%20") = none →
     w.AddAuthDetailsErr ⟨"GET", cfg.GetBaseMesheryURL ++
        "/api/experimental/application?search=" ++ Join (a :: rest) "%20", none⟩
        (effectiveTokenPath w) = none →
     requests (RunE w (a :: rest) false fmt) =
      [cfg.GetBaseMesheryURL ++ "/api/experimental/application?search=" ++
        Join (a :: rest) "%20"]) := by
  rw [RunE_byName w cfg a rest fmt hcfg hid hne]
  exact ⟨fetch_head _ _ _ _ _ _ _, fun hb hd => fetch_requests _ _ _ _ _ _ _ hb hd⟩

/-- C4 as amended, at the arguments "my" and "app". -/
theorem C4_byName_request_witness :
    (RunE (stubWorld 200 "null" none none) ["my", "app"] false "json").trace.head? =
      some (.NewRequest "GET" "http://localhost:9081/api/experimental/application?search=my%20app") ∧
    requests (RunE (stubWorld 200 "null" none none) ["my", "app"] false "json") =
      ["http://localhost:9081/api/experimental/application?search=my%20app"] :=
  have h := C4_byName_request (stubWorld 200 "null" none none) ⟨"http://localhost:9081"⟩
    "my" ["app"] "json" rfl rfl (by decide)
  ⟨h.1, h.2 rfl rfl⟩

/-- C5 fails as stated: for the two arguments below the joined token is not UUID-shaped,
yet the command takes the by-ID path, the request going to the first argument as a
path segment. -/
theorem C5_two_arguments_byID :
    MatchString uuidV4Pattern
      (Join ["3fae2b10-0000-4000-8000-000000000000", "x"] "%20") = .ok false ∧
    requests (RunE (stubWorld 200 "null" none none)
      ["3fae2b10-0000-4000-8000-000000000000", "x"] false "json") =
      ["http://localhost:9081/api/experimental/application/3fae2b10-0000-4000-8000-000000000000"] :=
  ⟨rfl, rfl⟩

/-- C5 as amended: for a non-empty argument list with select-all unset, the flag that
drives planning is the classification of the first argument alone: the run starts by
building the by-ID request `<base>/api/experimental/application/<first argument>`
exactly when the first argument matches the pattern, however many arguments follow. -/
theorem C5_byID_iff_first_argument (w : World) (cfg : MesheryCtlConfig) (a : String)
    (rest : List String) (fmt : String) (hcfg : w.GetMesheryCtl = .ok cfg) :
    (RunE w (a :: rest) false fmt).trace.head? =
        some (.NewRequest "GET"
          (cfg.GetBaseMesheryURL ++ "/api/experimental/application/" ++ a)) ↔
      MatchString uuidV4Pattern a = .ok true := by
  constructor
  · intro h
    rw [MatchString_ok] at *
    cases hm : matchPieces uuidV4Pattern a.toList with
    | true => rfl
    | false =>
      have hid : MatchString uuidV4Pattern a = .ok false := by rw [MatchString_ok, hm]
      by_cases he : Join (a :: rest) "%20" = ""
      · rw [RunE_empty_name w cfg a rest fmt hcfg he] at h
        simp at h
      · rw [RunE_byName w cfg a rest fmt hcfg hid he, fetch_head] at h
        simp only [Option.some.injEq, Event.NewRequest.injEq, true_and] at h
        exact absurd h (url_byName_ne_byID _ _ _)
  · intro hid
    rw [RunE_byID w cfg a rest fmt hcfg hid, fetch_head]

/-- C5 as amended, at a UUID-shaped first argument followed by a second argument. -/
theorem C5_byID_iff_first_argument_witness :
    (RunE (stubWorld 200 "null" none none)
        ["3fae2b10-0000-4000-8000-000000000000", "x"] false "json").trace.head? =
        some (.NewRequest "GET"
          "http://localhost:9081/api/experimental/application/3fae2b10-0000-4000-8000-000000000000") ↔
      MatchString uuidV4Pattern "3fae2b10-0000-4000-8000-000000000000" = .ok true :=
  C5_byID_iff_first_argument (stubWorld 200 "null" none none) ⟨"http://localhost:9081"⟩
    "3fae2b10-0000-4000-8000-000000000000" ["x"] "json" rfl

/-- C6, evaluated on the code: the service answers the search for "my-app" with a
collection of total count 1 whose only record is named "other"; the command ends
without error, having marshalled and written nothing. -/
theorem C6_no_match_succeeds :
    named "my-app" [sampleApp "other" "file"] = [] ∧
    (RunE (listingWorld 1 [sampleApp "other" "file"]) ["my-app"] false "json").result = .ok ∧
    stdout (RunE (listingWorld 1 [sampleApp "other" "file"]) ["my-app"] false "json") = [] ∧
    projected (RunE (listingWorld 1 [sampleApp "other" "file"]) ["my-app"] false "json") = [] :=
  ⟨rfl, rfl, rfl, rfl⟩

/-- C7 fails as stated: two records carry the searched name; both are marshalled in
returned order, and the bytes that reach the output-format step are those of the
second record, not of the first. -/
theorem C7_last_match_kept :
    projected (RunE (listingWorld 2 [sampleApp "my-app" "first", sampleApp "my-app" "second"])
        ["my-app"] false "yaml") =
      [.appStructPtr (appStruct.ofApp (sampleApp "my-app" "first")),
       .appStructPtr (appStruct.ofApp (sampleApp "my-app" "second"))] ∧
    rendered (RunE (listingWorld 2 [sampleApp "my-app" "first", sampleApp "my-app" "second"])
        ["my-app"] false "yaml") = ["app:my-app:second"] ∧
    (listingWorld 2 [sampleApp "my-app" "first", sampleApp "my-app" "second"]).MarshalIndent
      (.appStructPtr (appStruct.ofApp (sampleApp "my-app" "first"))) = .ok "app:my-app:first" ∧
    (listingWorld 2 [sampleApp "my-app" "first", sampleApp "my-app" "second"]).MarshalIndent
      (.appStructPtr (appStruct.ofApp (sampleApp "my-app" "second"))) = .ok "app:my-app:second" :=
  ⟨rfl, rfl, rfl, rfl⟩

/-- C7 as amended: in by-name mode with a non-zero total count, when every record named
exactly as the search term can be marshalled and has identifier and timestamps, a
view record is built and marshalled for each such record in returned order, each one
replacing the previous; the value left for the output-format step is the view record
built from the last such record `x`. -/
theorem C7_last_named_projected (w : World) (cfg : MesheryCtlConfig) (a : String)
    (rest : List String) (fmt body : String) (dat : GoMap) (r : ApplicationsAPIResponse)
    (apps : List MesheryApplication) (x : MesheryApplication)
    (hcfg : w.GetMesheryCtl = .ok cfg)
    (hid : MatchString uuidV4Pattern a = .ok false)
    (hne : Join (a :: rest) "%20" ≠ "")
    (hans : Answered w (cfg.GetBaseMesheryURL ++ "/api/experimental/application?search=" ++
      Join (a :: rest) "%20") body dat (some r))
    (hcount : r.TotalCount ≠ 0)
    (happs : r.Applications = some apps)
    (hgood : ∀ y ∈ apps, y.Name = Join (a :: rest) "%20" → Displayable w y)
    (hlast : (named (Join (a :: rest) "%20") apps).getLast? = some x) :
    projected (RunE w (a :: rest) false fmt) =
      (named (Join (a :: rest) "%20") apps).map (fun y => .appStructPtr (appStruct.ofApp y)) ∧
    (projected (RunE w (a :: rest) false fmt)).getLast? =
      some (.appStructPtr (appStruct.ofApp x)) ∧
    (∀ b, w.MarshalIndent (.appStructPtr (appStruct.ofApp x)) = .ok b → fmt = "yaml" →
      rendered (RunE w (a :: rest) false fmt) = [b]) := by
  have hnn : r.Applications.isNone = false := by rw [happs]; rfl
  obtain ⟨hm, b, hexit, hb⟩ := viewLoop_named w r (Join (a :: rest) "%20") apps body hnn hgood
  rw [hlast] at hb
  have hproj : projected (RunE w (a :: rest) false fmt) =
      (named (Join (a :: rest) "%20") apps).map
        (fun y => .appStructPtr (appStruct.ofApp y)) := by
    rw [RunE_byName w cfg a rest fmt hcfg hid hne, fetch_answered _ _ _ _ _ _ _ _ _ hans]
    simp [project, hcount, happs, hexit, hm, fetchEvents_no_marshal, render_no_marshal]
  refine ⟨hproj, ?_, ?_⟩
  · rw [hproj, List.getLast?_map, hlast]
    rfl
  · intro b1 hb1 hfmt
    have hbb : b1 = b := by
      rw [hb] at hb1
      exact (Except.ok.inj hb1).symm
    subst hbb hfmt
    have hconv := viewLoop_no_conversion w r (Join (a :: rest) "%20") apps body
    rw [RunE_byName w cfg a rest "yaml" hcfg hid hne, fetch_answered _ _ _ _ _ _ _ _ _ hans]
    simp [project, hcount, happs, hexit, hconv, fetchEvents_no_conversion, render]
    cases w.JSONToYAML b1 <;> simp [rendered, Event.converted]

/-- C7 as amended, at three records of which the first and the third carry the searched
name. -/
theorem C7_last_named_projected_witness :
    projected (RunE (listingWorld 3 [sampleApp "my-app" "first", sampleApp "other" "file",
        sampleApp "my-app" "second"]) ["my-app"] false "yaml") =
      [.appStructPtr (appStruct.ofApp (sampleApp "my-app" "first")),
       .appStructPtr (appStruct.ofApp (sampleApp "my-app" "second"))] ∧
    (projected (RunE (listingWorld 3 [sampleApp "my-app" "first", sampleApp "other" "file",
        sampleApp "my-app" "second"]) ["my-app"] false "yaml")).getLast? =
      some (.appStructPtr (appStruct.ofApp (sampleApp "my-app" "second"))) ∧
    rendered (RunE (listingWorld 3 [sampleApp "my-app" "first", sampleApp "other" "file",
        sampleApp "my-app" "second"]) ["my-app"] false "yaml") = ["app:my-app:second"] :=
  have h := C7_last_named_projected
    (listingWorld 3 [sampleApp "my-app" "first", sampleApp "other" "file",
      sampleApp "my-app" "second"])
    ⟨"http://localhost:9081"⟩ "my-app" [] "yaml" "listing"
    (listingPayload 3 [sampleApp "my-app" "first", sampleApp "other" "file",
      sampleApp "my-app" "second"])
    ⟨3, some [sampleApp "my-app" "first", sampleApp "other" "file",
      sampleApp "my-app" "second"]⟩
    [sampleApp "my-app" "first", sampleApp "other" "file", sampleApp "my-app" "second"]
    (sampleApp "my-app" "second")
    rfl rfl (by decide) ⟨rfl, rfl, ⟨_, rfl, rfl, rfl⟩, rfl, rfl⟩ (by decide) rfl
    (fun y _ _ => ⟨⟨_, rfl⟩, by
      have hy : y ∈ [sampleApp "my-app" "first", sampleApp "other" "file",
        sampleApp "my-app" "second"] := by assumption
      simp only [List.mem_cons, List.mem_singleton, List.not_mem_nil, or_false] at hy
      rcases hy with h | h | h <;> subst h <;> exact ⟨rfl, rfl, rfl⟩⟩)
    rfl
  ⟨h.1, h.2.1, h.2.2 _ rfl rfl⟩

/-- C8: in by-name mode, when the decoded collection has total count zero the command
fails with the not-found error whatever the applications sequence holds; the run ends
right after the two decodings, so nothing was marshalled and nothing was written. -/
theorem C8_zero_count (w : World) (cfg : MesheryCtlConfig) (a : String) (rest : List String)
    (fmt body : String) (dat : GoMap) (r : ApplicationsAPIResponse)
    (hcfg : w.GetMesheryCtl = .ok cfg)
    (hid : MatchString uuidV4Pattern a = .ok false)
    (hne : Join (a :: rest) "%20" ≠ "")
    (hans : Answered w (cfg.GetBaseMesheryURL ++ "/api/experimental/application?search=" ++
      Join (a :: rest) "%20") body dat (some r))
    (hzero : r.TotalCount = 0) :
    (RunE w (a :: rest) false fmt).result =
      .err "application does not exit. Please get an app name and try again. Use `mesheryctl app list` to see a list of applications" ∧
    (RunE w (a :: rest) false fmt).trace =
      fetchEvents w (cfg.GetBaseMesheryURL ++ "/api/experimental/application?search=" ++
        Join (a :: rest) "%20") body ∧
    stdout (RunE w (a :: rest) false fmt) = [] := by
  rw [RunE_byName w cfg a rest fmt hcfg hid hne, fetch_answered _ _ _ _ _ _ _ _ _ hans]
  simp [project, hzero, fetchEvents_no_stdout]

/-- C8 at a collection of total count zero that holds a record with the searched name. -/
theorem C8_zero_count_witness :
    (RunE (listingWorld 0 [sampleApp "my-app" "file"]) ["my-app"] false "json").result =
      .err "application does not exit. Please get an app name and try again. Use `mesheryctl app list` to see a list of applications" ∧
    (RunE (listingWorld 0 [sampleApp "my-app" "file"]) ["my-app"] false "json").trace =
      fetchEvents (listingWorld 0 [sampleApp "my-app" "file"])
        "http://localhost:9081/api/experimental/application?search=my-app" "listing" ∧
    stdout (RunE (listingWorld 0 [sampleApp "my-app" "file"]) ["my-app"] false "json") = [] :=
  C8_zero_count (listingWorld 0 [sampleApp "my-app" "file"])
    ⟨"http://localhost:9081"⟩ "my-app" [] "json" "listing"
    (listingPayload 0 [sampleApp "my-app" "file"]) ⟨0, some [sampleApp "my-app" "file"]⟩
    rfl rfl (by decide) ⟨rfl, rfl, ⟨_, rfl, rfl, rfl⟩, rfl, rfl⟩ rfl

/-- C9: in fetch-all mode (no argument, select-all set, status 200, body decoded) the
one value marshalled is a mapping with the single key "applications" holding the
payload's value at that key, which is null when the payload has no such key; no other
top-level key of the payload is kept. -/
theorem C9_all_projection (w : World) (cfg : MesheryCtlConfig) (fmt body : String)
    (dat : GoMap) (response : Option ApplicationsAPIResponse)
    (hcfg : w.GetMesheryCtl = .ok cfg)
    (hans : Answered w (cfg.GetBaseMesheryURL ++
      "/api/experimental/application?page_size=10000") body dat response) :
    projected (RunE w [] true fmt) =
      [.mapValue (some [("applications", dat.index "applications")])] ∧
    (∀ kvs, dat = some kvs → (∀ kv ∈ kvs, kv.1 ≠ "applications") →
      projected (RunE w [] true fmt) = [.mapValue (some [("applications", .null)])]) ∧
    (dat = none →
      projected (RunE w [] true fmt) = [.mapValue (some [("applications", .null)])]) := by
  have h : projected (RunE w [] true fmt) =
      [.mapValue (some [("applications", dat.index "applications")])] := by
    rw [RunE_all w cfg fmt hcfg, fetch_answered _ _ _ _ _ _ _ _ _ hans, project_all,
      projected_after, projected_after, fetchEvents_no_marshal]
    cases w.MarshalIndent (.mapValue (some [("applications", dat.index "applications")])) <;>
      simp [Event.marshalled, render_no_marshal]
  refine ⟨h, ?_, ?_⟩
  · intro kvs hd habs
    rw [h, hd, index_absent kvs "applications" habs]
  · intro hd
    rw [h, hd]
    rfl

/-- C9 at a listing with three keys besides "applications". -/
theorem C9_all_projection_witness :
    projected (RunE (listingWorld 1 [sampleApp "other" "file"]) [] true "json") =
      [.mapValue (some [("applications", .arr [recordPayload (sampleApp "other" "file")])])] :=
  (C9_all_projection (listingWorld 1 [sampleApp "other" "file"]) ⟨"http://localhost:9081"⟩
    "json" "listing" (listingPayload 1 [sampleApp "other" "file"])
    (some ⟨1, some [sampleApp "other" "file"]⟩) rfl
    ⟨rfl, rfl, ⟨_, rfl, rfl, rfl⟩, rfl, rfl⟩).1

/-- C10: in by-ID mode (first argument UUID-shaped, select-all unset, status 200, body
decoded) the one value marshalled is the untyped mapping itself, with every key and
value it has; nothing is written by a summary, and how the run ends is decided by the
output-format step alone, whatever the typed decoding holds (no total-count check, no
name matching). -/
theorem C10_byID_projection (w : World) (cfg : MesheryCtlConfig) (a : String)
    (rest : List String) (fmt body : String) (dat : GoMap)
    (response : Option ApplicationsAPIResponse)
    (hcfg : w.GetMesheryCtl = .ok cfg)
    (hid : MatchString uuidV4Pattern a = .ok true)
    (hans : Answered w (cfg.GetBaseMesheryURL ++ "/api/experimental/application/" ++ a)
      body dat response) :
    projected (RunE w (a :: rest) false fmt) = [.mapValue dat] ∧
    stdout (RunE w (a :: rest) false fmt) = [] ∧
    (∀ b, w.MarshalIndent (.mapValue dat) = .ok b →
      (RunE w (a :: rest) false fmt).result = (render w fmt b).result) := by
  rw [RunE_byID w cfg a rest fmt hcfg hid, fetch_answered _ _ _ _ _ _ _ _ _ hans, project_byID]
  refine ⟨?_, ?_, ?_⟩
  · rw [projected_after, projected_after, fetchEvents_no_marshal]
    cases w.MarshalIndent (.mapValue dat) <;> simp [Event.marshalled, render_no_marshal]
  · rw [stdout_after, stdout_after, fetchEvents_no_stdout]
    cases w.MarshalIndent (.mapValue dat) <;> simp [Event.written, render_no_stdout]
  · intro b hb
    simp [hb]

/-- C10 at a single resource: its typed decoding has total count zero and no record,
and its key "revision" is unknown to the typed record. -/
theorem C10_byID_projection_witness :
    projected (RunE resourceWorld ["3fae2b10-0000-4000-8000-000000000000"] false "json") =
      [.mapValue resourcePayload] ∧
    stdout (RunE resourceWorld ["3fae2b10-0000-4000-8000-000000000000"] false "json") = [] ∧
    (RunE resourceWorld ["3fae2b10-0000-4000-8000-000000000000"] false "json").result = .ok :=
  have h := C10_byID_projection resourceWorld
    ⟨"http://localhost:9081"⟩ "3fae2b10-0000-4000-8000-000000000000" [] "json" "resource"
    resourcePayload (some ⟨0, none⟩) rfl rfl ⟨rfl, rfl, ⟨_, rfl, rfl, rfl⟩, rfl, rfl⟩
  ⟨h.1, h.2.1, h.2.2 _ rfl⟩

/-- C11: in by-ID mode, when the request is answered with any status code other than 200
the command fails with the message "Response Status Code <code>, possible invalid ID";
the run ends with sending the request, so the body is not read, decoded, marshalled or
converted and nothing is written. -/
theorem C11_non200_byID (w : World) (cfg : MesheryCtlConfig) (a : String)
    (rest : List String) (fmt : String) (res : Response)
    (hcfg : w.GetMesheryCtl = .ok cfg)
    (hid : MatchString uuidV4Pattern a = .ok true)
    (hbuilt : w.NewRequestErr "GET"
      (cfg.GetBaseMesheryURL ++ "/api/experimental/application/" ++ a) = none)
    (hdecorated : w.AddAuthDetailsErr
      ⟨"GET", cfg.GetBaseMesheryURL ++ "/api/experimental/application/" ++ a, none⟩
      (effectiveTokenPath w) = none)
    (hsent : w.Do ⟨"GET", cfg.GetBaseMesheryURL ++ "/api/experimental/application/" ++ a,
      some (effectiveTokenPath w)⟩ = .ok res)
    (hstatus : res.StatusCode ≠ 200) :
    RunE w (a :: rest) false fmt =
      ⟨[.NewRequest "GET" (cfg.GetBaseMesheryURL ++ "/api/experimental/application/" ++ a),
        .AddAuthDetails (effectiveTokenPath w),
        .Do ⟨"GET", cfg.GetBaseMesheryURL ++ "/api/experimental/application/" ++ a,
          some (effectiveTokenPath w)⟩],
       .err ("Response Status Code " ++ toString res.StatusCode ++ ", possible invalid ID")⟩ ∧
    projected (RunE w (a :: rest) false fmt) = [] ∧
    rendered (RunE w (a :: rest) false fmt) = [] ∧
    stdout (RunE w (a :: rest) false fmt) = [] := by
  have h : RunE w (a :: rest) false fmt =
      ⟨[.NewRequest "GET" (cfg.GetBaseMesheryURL ++ "/api/experimental/application/" ++ a),
        .AddAuthDetails (effectiveTokenPath w),
        .Do ⟨"GET", cfg.GetBaseMesheryURL ++ "/api/experimental/application/" ++ a,
          some (effectiveTokenPath w)⟩],
       .err ("Response Status Code " ++ toString res.StatusCode ++
        ", possible invalid ID")⟩ := by
    rw [RunE_byID w cfg a rest fmt hcfg hid]
    simp [fetch, hbuilt, hdecorated, hsent, hstatus, Outcome.after]
  rw [h]
  exact ⟨rfl, rfl, rfl, rfl⟩

/-- C11 at the status codes 404 and 204. -/
theorem C11_non200_byID_witness :
    (RunE (stubWorld 404 "not found" none none)
        ["3fae2b10-0000-4000-8000-000000000000"] false "yaml").result =
      .err "Response Status Code 404, possible invalid ID" ∧
    (RunE (stubWorld 204 "" none none)
        ["3fae2b10-0000-4000-8000-000000000000"] false "yaml").result =
      .err "Response Status Code 204, possible invalid ID" ∧
    projected (RunE (stubWorld 204 "" none none)
        ["3fae2b10-0000-4000-8000-000000000000"] false "yaml") = [] :=
  have h404 := C11_non200_byID (stubWorld 404 "not found" none none)
    ⟨"http://localhost:9081"⟩ "3fae2b10-0000-4000-8000-000000000000" [] "yaml"
    ⟨404, .ok "not found"⟩ rfl rfl rfl rfl rfl (by decide)
  have h204 := C11_non200_byID (stubWorld 204 "" none none)
    ⟨"http://localhost:9081"⟩ "3fae2b10-0000-4000-8000-000000000000" [] "yaml"
    ⟨204, .ok ""⟩ rfl rfl rfl rfl rfl (by decide)
  ⟨congrArg Outcome.result h404.1, congrArg Outcome.result h204.1, h204.2.1⟩

/-- C12, evaluated on the code: a fetch-all run with format json ends without error and
has written nothing, and a by-name run that finds its record ends without error
having written the eight lines of the summary and no structured block. -/
theorem C12_body_not_written :
    (RunE (listingWorld 1 [sampleApp "my-app" "file"]) [] true "json").result = .ok ∧
    projected (RunE (listingWorld 1 [sampleApp "my-app" "file"]) [] true "json") =
      [.mapValue (some [("applications", .arr [recordPayload (sampleApp "my-app" "file")])])] ∧
    stdout (RunE (listingWorld 1 [sampleApp "my-app" "file"]) [] true "json") = [] ∧
    (RunE (listingWorld 1 [sampleApp "my-app" "file"]) ["my-app"] false "json").result = .ok ∧
    stdout (RunE (listingWorld 1 [sampleApp "my-app" "file"]) ["my-app"] false "json") =
      ["Name: my-app\n",
       "ID: 3fae2b10-0000-4000-8000-000000000000\n",
       "ApplicationFile: file\n",
       "UpdatedAt: 2021-06-02 10:00:00 +0000 UTC\n",
       "CreatedAt: 2021-06-01 10:00:00 +0000 UTC\n",
       "UserID: 0xc000010000\n",
       "Location: map[]\n",
       "#####################\n"] :=
  ⟨rfl, rfl, rfl, rfl, rfl⟩

/-- C13 fails as stated: the search for "my-app" finds its record and writes the summary,
then the invalid output format makes the command return an error. -/
theorem C13_summary_before_error :
    (RunE (listingWorld 1 [sampleApp "my-app" "file"]) ["my-app"] false "xml").result =
      .err "output-format choice invalid, use [json|yaml]" ∧
    stdout (RunE (listingWorld 1 [sampleApp "my-app" "file"]) ["my-app"] false "xml") =
      ["Name: my-app\n",
       "ID: 3fae2b10-0000-4000-8000-000000000000\n",
       "ApplicationFile: file\n",
       "UpdatedAt: 2021-06-02 10:00:00 +0000 UTC\n",
       "CreatedAt: 2021-06-01 10:00:00 +0000 UTC\n",
       "UserID: 0xc000010000\n",
       "Location: map[]\n",
       "#####################\n"] :=
  ⟨rfl, rfl⟩

/-- C13 as amended: a run that returns an error has written something only in one case:
by-name mode (select-all unset, first argument not UUID-shaped), the request built,
decorated and answered with status 200, the body decoded to a collection with a
non-zero total count that holds a record named exactly as the search term; the error
is then the invalid-format error, a failed conversion to YAML, or a failed marshalling
of a record with that name. Every other error is returned with nothing written. -/
theorem C13_output_only_after_match (w : World) (args : List String) (va : Bool)
    (fmt msg : String)
    (herr : (RunE w args va fmt).result = .err msg)
    (hout : stdout (RunE w args va fmt) ≠ []) :
    va = false ∧
    ∃ cfg a rest body dat r apps x,
      w.GetMesheryCtl = .ok cfg ∧ args = a :: rest ∧
      MatchString uuidV4Pattern a = .ok false ∧
      Answered w (cfg.GetBaseMesheryURL ++ "/api/experimental/application?search=" ++
        Join args "%20") body dat (some r) ∧
      (∃ evs, (RunE w args va fmt).trace =
          fetchEvents w (cfg.GetBaseMesheryURL ++ "/api/experimental/application?search=" ++
            Join args "%20") body ++ evs ∧
        ∀ e ∈ evs, e.isLocal = true) ∧
      r.TotalCount ≠ 0 ∧ r.Applications = some apps ∧ x ∈ apps ∧
      x.Name = Join args "%20" ∧
      (msg = "output-format choice invalid, use [json|yaml]" ∨
       (∃ b e, w.JSONToYAML b = .error e ∧ msg = Wrap e "failed to convert json to yaml") ∨
       (∃ y ∈ apps, y.Name = Join args "%20" ∧
         w.MarshalIndent (.appStructPtr (appStruct.ofApp y)) = .error msg)) := by
  cases hcfg : w.GetMesheryCtl with
  | error e => exact absurd (by simp [RunE, hcfg]) hout
  | ok cfg =>
    cases args with
    | nil =>
      cases va with
      | false => exact absurd (by simp [RunE, hcfg, len_eq_zero_iff, Join]) hout
      | true =>
        rw [RunE_all w cfg fmt hcfg] at hout
        obtain ⟨body, dat, response, hans⟩ := fetch_stdout_nonempty _ _ _ _ _ _ hout
        rw [fetch_answered_stdout _ _ _ _ _ _ _ _ _ hans] at hout
        have hva := (project_stdout_nonempty _ _ _ _ _ _ _ _ hout).2.1
        exact absurd hva (by simp)
    | cons a rest =>
      cases va with
      | true => exact absurd (by simp [RunE, hcfg]) hout
      | false =>
        cases hm : matchPieces uuidV4Pattern a.toList with
        | true =>
          have hid : MatchString uuidV4Pattern a = .ok true := by rw [MatchString_ok, hm]
          rw [RunE_byID w cfg a rest fmt hcfg hid] at hout
          obtain ⟨body, dat, response, hans⟩ := fetch_stdout_nonempty _ _ _ _ _ _ hout
          rw [fetch_answered_stdout _ _ _ _ _ _ _ _ _ hans] at hout
          have hisID := (project_stdout_nonempty _ _ _ _ _ _ _ _ hout).1
          exact absurd hisID (by simp)
        | false =>
          have hid : MatchString uuidV4Pattern a = .ok false := by rw [MatchString_ok, hm]
          by_cases he : Join (a :: rest) "%20" = ""
          · rw [RunE_empty_name w cfg a rest fmt hcfg he] at hout
            exact absurd rfl hout
          · have hrun := RunE_byName w cfg a rest fmt hcfg hid he
            rw [hrun] at hout herr
            obtain ⟨body, dat, response, hans⟩ := fetch_stdout_nonempty _ _ _ _ _ _ hout
            rw [fetch_answered_stdout _ _ _ _ _ _ _ _ _ hans] at hout
            rw [fetch_answered_result _ _ _ _ _ _ _ _ _ hans] at herr
            obtain ⟨_, _, r, apps, x, hr, hcount, happs, hx, hname⟩ :=
              project_stdout_nonempty _ _ _ _ _ _ _ _ hout
            subst hr
            have htrace : ∃ evs, (RunE w (a :: rest) false fmt).trace =
                fetchEvents w (cfg.GetBaseMesheryURL ++
                  "/api/experimental/application?search=" ++ Join (a :: rest) "%20") body ++
                  evs ∧ ∀ e ∈ evs, e.isLocal = true := by
              rw [hrun, fetch_answered _ _ _ _ _ _ _ _ _ hans, after_trace]
              exact ⟨_, rfl, project_trace_local w false false fmt _ dat (some r) body⟩
            exact ⟨rfl, cfg, a, rest, body, dat, r, apps, x, rfl, rfl, hid, hans, htrace,
              hcount, happs, hx, hname,
              project_byName_err w fmt _ dat r apps body msg hcount happs herr⟩

/-- C13 as amended, at the run that writes a summary and then fails on the format. -/
theorem C13_output_only_after_match_witness :
    (RunE (listingWorld 1 [sampleApp "my-app" "file"]) ["my-app"] false "xml").result =
      .err "output-format choice invalid, use [json|yaml]" ∧
    stdout (RunE (listingWorld 1 [sampleApp "my-app" "file"]) ["my-app"] false "xml") ≠ [] ∧
    ∃ cfg a rest body dat r apps x,
      (listingWorld 1 [sampleApp "my-app" "file"]).GetMesheryCtl = .ok cfg ∧
      ["my-app"] = a :: rest ∧
      MatchString uuidV4Pattern a = .ok false ∧
      Answered (listingWorld 1 [sampleApp "my-app" "file"])
        (cfg.GetBaseMesheryURL ++ "/api/experimental/application?search=" ++
          Join ["my-app"] "%20") body dat (some r) ∧
      (∃ evs, (RunE (listingWorld 1 [sampleApp "my-app" "file"]) ["my-app"] false "xml").trace =
          fetchEvents (listingWorld 1 [sampleApp "my-app" "file"])
            (cfg.GetBaseMesheryURL ++ "/api/experimental/application?search=" ++
              Join ["my-app"] "%20") body ++ evs ∧
        ∀ e ∈ evs, e.isLocal = true) ∧
      r.TotalCount ≠ 0 ∧ r.Applications = some apps ∧ x ∈ apps ∧
      x.Name = Join ["my-app"] "%20" ∧
      (("output-format choice invalid, use [json|yaml]" : String) =
          "output-format choice invalid, use [json|yaml]" ∨
       (∃ b e, (listingWorld 1 [sampleApp "my-app" "file"]).JSONToYAML b = .error e ∧
         "output-format choice invalid, use [json|yaml]" =
           Wrap e "failed to convert json to yaml") ∨
       (∃ y ∈ apps, y.Name = Join ["my-app"] "%20" ∧
         (listingWorld 1 [sampleApp "my-app" "file"]).MarshalIndent
           (.appStructPtr (appStruct.ofApp y)) =
           .error "output-format choice invalid, use [json|yaml]")) :=
  have hne : stdout (RunE (listingWorld 1 [sampleApp "my-app" "file"])
      ["my-app"] false "xml") ≠ [] := by decide
  ⟨rfl, hne, (C13_output_only_after_match (listingWorld 1 [sampleApp "my-app" "file"])
    ["my-app"] false "xml" "output-format choice invalid, use [json|yaml]" rfl hne).2⟩

/-- C14 fails as stated: with the format "xml", no argument and select-all unset the
command fails with the no-selector error, not with the invalid-format error. -/
theorem C14_earlier_error_wins :
    ("xml" : String) ≠ "json" ∧ ("xml" : String) ≠ "yaml" ∧
    (RunE (stubWorld 200 "null" none none) [] false "xml").result =
      .err "[application-name|application-id] not specified, use -a to view all applications" ∧
    (RunE (stubWorld 200 "null" none none) [] false "xml").result ≠
      .err "output-format choice invalid, use [json|yaml]" :=
  ⟨by decide, by decide, rfl, by
    intro h
    exact absurd (Result.err.inj h) (by decide)⟩

/-- C14 as amended: with a format that is neither "json" nor "yaml" the command never
ends successfully; the format is checked last, so the run has the events of the same
invocation with "json" and ends as it does, except that a successful end becomes the
invalid-format error. -/
theorem C14_unsupported_format (w : World) (args : List String) (va : Bool) (fmt : String)
    (hj : fmt ≠ "json") (hy : fmt ≠ "yaml") :
    (RunE w args va fmt).result ≠ .ok ∧
    (RunE w args va fmt).trace = (RunE w args va "json").trace ∧
    ((RunE w args va "json").result = .ok →
      (RunE w args va fmt).result = .err "output-format choice invalid, use [json|yaml]") ∧
    ((RunE w args va "json").result ≠ .ok →
      (RunE w args va fmt).result = (RunE w args va "json").result) := by
  rw [RunE_unsupported w args va fmt hj hy]
  refine ⟨?_, rfl, ?_, ?_⟩
  · unfold Outcome.failOnFormat
    cases (RunE w args va "json").result <;> simp
  · intro hok
    simp [Outcome.failOnFormat, hok]
  · intro hne
    unfold Outcome.failOnFormat
    cases hres : (RunE w args va "json").result with
    | ok => exact absurd hres hne
    | err e => rfl
    | panic e => rfl

/-- C14 as amended, at a fetch-all run, which succeeds with "json" and fails on "xml". -/
theorem C14_unsupported_format_witness :
    (RunE (listingWorld 1 [sampleApp "my-app" "file"]) [] true "xml").result =
      .err "output-format choice invalid, use [json|yaml]" :=
  (C14_unsupported_format (listingWorld 1 [sampleApp "my-app" "file"]) [] true "xml"
    (by decide) (by decide)).2.2.1 rfl

/-- C15: with no argument and select-all set the one request built is for
`<base>/api/experimental/application?page_size=10000`, and with a single UUID-shaped
argument and select-all unset it is for `<base>/api/experimental/application/<argument>`;
in both cases at most one request is sent, and exactly one, to that URL, when the
request is built and decorated without error. -/
theorem C15_request_shapes (w : World) (cfg : MesheryCtlConfig) (a fmt : String)
    (hcfg : w.GetMesheryCtl = .ok cfg)
    (hid : MatchString uuidV4Pattern a = .ok true) :
    (built (RunE w [] true fmt) =
        [cfg.GetBaseMesheryURL ++ "/api/experimental/application?page_size=10000"] ∧
      (requests (RunE w [] true fmt) = [] ∨ requests (RunE w [] true fmt) =
        [cfg.GetBaseMesheryURL ++ "/api/experimental/application?page_size=10000"]) ∧
      (w.NewRequestErr "GET"
          (cfg.GetBaseMesheryURL ++ "/api/experimental/application?page_size=10000") = none →
        w.AddAuthDetailsErr
          ⟨"GET", cfg.GetBaseMesheryURL ++ "/api/experimental/application?page_size=10000",
            none⟩ (effectiveTokenPath w) = none →
        requests (RunE w [] true fmt) =
          [cfg.GetBaseMesheryURL ++ "/api/experimental/application?page_size=10000"])) ∧
    (built (RunE w [a] false fmt) =
        [cfg.GetBaseMesheryURL ++ "/api/experimental/application/" ++ a] ∧
      (requests (RunE w [a] false fmt) = [] ∨ requests (RunE w [a] false fmt) =
        [cfg.GetBaseMesheryURL ++ "/api/experimental/application/" ++ a]) ∧
      (w.NewRequestErr "GET"
          (cfg.GetBaseMesheryURL ++ "/api/experimental/application/" ++ a) = none →
        w.AddAuthDetailsErr
          ⟨"GET", cfg.GetBaseMesheryURL ++ "/api/experimental/application/" ++ a, none⟩
          (effectiveTokenPath w) = none →
        requests (RunE w [a] false fmt) =
          [cfg.GetBaseMesheryURL ++ "/api/experimental/application/" ++ a])) := by
  rw [RunE_all w cfg fmt hcfg, RunE_byID w cfg a [] fmt hcfg hid]
  exact ⟨⟨fetch_built _ _ _ _ _ _ _, fetch_requests_cases _ _ _ _ _ _ _,
      fun hb hd => fetch_requests _ _ _ _ _ _ _ hb hd⟩,
    ⟨fetch_built _ _ _ _ _ _ _, fetch_requests_cases _ _ _ _ _ _ _,
      fun hb hd => fetch_requests _ _ _ _ _ _ _ hb hd⟩⟩

/-- C15 at a listing and at a single resource. -/
theorem C15_request_shapes_witness :
    requests (RunE resourceWorld [] true "yaml") =
      ["http://localhost:9081/api/experimental/application?page_size=10000"] ∧
    requests (RunE resourceWorld ["3fae2b10-0000-4000-8000-000000000000"] false "yaml") =
      ["http://localhost:9081/api/experimental/application/3fae2b10-0000-4000-8000-000000000000"] :=
  have h := C15_request_shapes resourceWorld ⟨"http://localhost:9081"⟩
    "3fae2b10-0000-4000-8000-000000000000" "yaml" rfl rfl
  ⟨h.1.2.2 rfl rfl, h.2.2.2 rfl rfl⟩

/-- C16: in by-name mode with two or more arguments the name of a record is compared
with the arguments joined by "%20": every view record marshalled comes from a record
whose name is the first argument, "%20", and the joined rest, and when no record of
the collection has that name nothing is marshalled and nothing is written. -/
theorem C16_joined_name_compared (w : World) (cfg : MesheryCtlConfig) (a b : String)
    (rest : List String) (fmt body : String) (dat : GoMap) (r : ApplicationsAPIResponse)
    (apps : List MesheryApplication)
    (hcfg : w.GetMesheryCtl = .ok cfg)
    (hid : MatchString uuidV4Pattern a = .ok false)
    (hans : Answered w (cfg.GetBaseMesheryURL ++ "/api/experimental/application?search=" ++
      Join (a :: b :: rest) "%20") body dat (some r))
    (happs : r.Applications = some apps) :
    (∀ v ∈ projected (RunE w (a :: b :: rest) false fmt),
      ∃ x ∈ apps, x.Name = a ++ "%20" ++ Join (b :: rest) "%20" ∧
        v = .appStructPtr (appStruct.ofApp x)) ∧
    ((∀ x ∈ apps, x.Name ≠ a ++ "%20" ++ Join (b :: rest) "%20") →
      projected (RunE w (a :: b :: rest) false fmt) = [] ∧
      stdout (RunE w (a :: b :: rest) false fmt) = []) := by
  have hjoin : Join (a :: b :: rest) "%20" = a ++ "%20" ++ Join (b :: rest) "%20" := by
    simp only [Join]
  rw [← hjoin]
  rw [RunE_byName w cfg a (b :: rest) fmt hcfg hid (Join_two_ne_empty a b rest),
    fetch_answered _ _ _ _ _ _ _ _ _ hans]
  by_cases hcount : r.TotalCount = 0
  · simp [project, hcount, fetchEvents_no_marshal, fetchEvents_no_stdout]
  · rw [project_byName w fmt _ dat r body hcount, happs]
    simp only [Option.getD_some, projected_after, stdout_after, fetchEvents_no_marshal,
      fetchEvents_no_stdout, List.nil_append]
    have hrest : ∀ (o : Outcome), o = (match (viewLoop w r (Join (a :: b :: rest) "%20")
        apps body).2 with
        | .returned res => (⟨[], res⟩ : Outcome)
        | .completed body1 => render w fmt body1) → projected o = [] ∧ stdout o = [] := by
      intro o ho
      cases hx : (viewLoop w r (Join (a :: b :: rest) "%20") apps body).2 with
      | returned res =>
        rw [hx] at ho
        subst ho
        exact ⟨rfl, rfl⟩
      | completed b1 =>
        rw [hx] at ho
        subst ho
        exact ⟨render_no_marshal w fmt b1, render_no_stdout w fmt b1⟩
    obtain ⟨hp, hs⟩ := hrest _ rfl
    rw [hp, hs]
    simp only [List.append_nil]
    refine ⟨viewLoop_marshalled_named w r _ apps body, ?_⟩
    intro hnone
    rw [viewLoop_events_of_not_named w r _ apps body (named_eq_nil _ apps hnone)]
    exact ⟨rfl, rfl⟩

/-- C16 at the arguments "my" and "app" and a record named "my app". -/
theorem C16_joined_name_compared_witness :
    projected (RunE (listingWorld 1 [sampleApp "my app" "file"]) ["my", "app"] false "json") =
      [] ∧
    stdout (RunE (listingWorld 1 [sampleApp "my app" "file"]) ["my", "app"] false "json") =
      [] :=
  (C16_joined_name_compared (listingWorld 1 [sampleApp "my app" "file"])
    ⟨"http://localhost:9081"⟩ "my" "app" [] "json" "listing"
    (listingPayload 1 [sampleApp "my app" "file"]) ⟨1, some [sampleApp "my app" "file"]⟩
    [sampleApp "my app" "file"] rfl rfl ⟨rfl, rfl, ⟨_, rfl, rfl, rfl⟩, rfl, rfl⟩ rfl).2
    (by
      intro x hx
      simp only [List.mem_singleton] at hx
      subst hx
      decide)

/-- C17, evaluated on the code: the collection has total count 1 and its one record is
named as the search term and has an identifier but no timestamp; the run writes the
lines Name, ID and ApplicationFile, then panics on the nil `UpdatedAt` of line 165, so
no separator line is written although one record matches. -/
theorem C17_panic_before_separator :
    (named "my-app" [idOnlyApp "my-app"]).length = 1 ∧
    stdout (RunE (listingWorld 1 [idOnlyApp "my-app"]) ["my-app"] false "yaml") =
      ["Name: my-app\n",
       "ID: 3fae2b10-0000-4000-8000-000000000000\n",
       "ApplicationFile: \n"] ∧
    (stdout (RunE (listingWorld 1 [idOnlyApp "my-app"]) ["my-app"] false "yaml")).count
      separatorLine = 0 ∧
    (RunE (listingWorld 1 [idOnlyApp "my-app"]) ["my-app"] false "yaml").result =
      .panic nilDereference :=
  ⟨rfl, rfl, by decide, rfl⟩

/-- The summary loop on records that can be displayed: in by-name mode with a non-zero
total count, when every record named as the search term can be marshalled and has
identifier and timestamps, the output is the summary block (Name, ID, ApplicationFile,
UpdatedAt, CreatedAt, UserID, Location, then the separator line) of each such record in
returned order, so the separator line is written as many times as there are such
records. -/
theorem summary_per_displayable_match (w : World) (cfg : MesheryCtlConfig) (a : String)
    (rest : List String) (fmt body : String) (dat : GoMap) (r : ApplicationsAPIResponse)
    (apps : List MesheryApplication)
    (hcfg : w.GetMesheryCtl = .ok cfg)
    (hid : MatchString uuidV4Pattern a = .ok false)
    (hne : Join (a :: rest) "%20" ≠ "")
    (hans : Answered w (cfg.GetBaseMesheryURL ++ "/api/experimental/application?search=" ++
      Join (a :: rest) "%20") body dat (some r))
    (hcount : r.TotalCount ≠ 0)
    (happs : r.Applications = some apps)
    (hgood : ∀ y ∈ apps, y.Name = Join (a :: rest) "%20" → Displayable w y) :
    stdout (RunE w (a :: rest) false fmt) =
      (named (Join (a :: rest) "%20") apps).flatMap (summaryLines w) ∧
    (stdout (RunE w (a :: rest) false fmt)).count separatorLine =
      (named (Join (a :: rest) "%20") apps).length := by
  have hnn : r.Applications.isNone = false := by rw [happs]; rfl
  have hout : stdout (RunE w (a :: rest) false fmt) =
      (named (Join (a :: rest) "%20") apps).flatMap (summaryLines w) := by
    rw [RunE_byName w cfg a rest fmt hcfg hid hne, fetch_answered _ _ _ _ _ _ _ _ _ hans,
      stdout_after, fetchEvents_no_stdout, project_byName_stdout w fmt _ dat r body hcount,
      happs]
    simpa using viewLoop_written w r _ apps body hnn hgood
  refine ⟨hout, ?_⟩
  rw [hout]
  apply summaries_count
  intro x hx
  have hm := List.mem_filter.mp hx
  have hd := hgood x hm.1 (by simpa using hm.2)
  exact hd.2

/-- The summary loop at three displayable records of which the first and the third carry
the searched name. -/
theorem summary_per_displayable_match_at_three_records :
    (stdout (RunE (listingWorld 3 [sampleApp "my-app" "first", sampleApp "other" "file",
        sampleApp "my-app" "second"]) ["my-app"] false "json")).count separatorLine = 2 :=
  (summary_per_displayable_match
    (listingWorld 3 [sampleApp "my-app" "first", sampleApp "other" "file",
      sampleApp "my-app" "second"])
    ⟨"http://localhost:9081"⟩ "my-app" [] "json" "listing"
    (listingPayload 3 [sampleApp "my-app" "first", sampleApp "other" "file",
      sampleApp "my-app" "second"])
    ⟨3, some [sampleApp "my-app" "first", sampleApp "other" "file",
      sampleApp "my-app" "second"]⟩
    [sampleApp "my-app" "first", sampleApp "other" "file", sampleApp "my-app" "second"]
    rfl rfl (by decide) ⟨rfl, rfl, ⟨_, rfl, rfl, rfl⟩, rfl, rfl⟩ (by decide) rfl
    (fun y _ _ => ⟨⟨_, rfl⟩, by
      have hy : y ∈ [sampleApp "my-app" "first", sampleApp "other" "file",
        sampleApp "my-app" "second"] := by assumption
      simp only [List.mem_cons, List.mem_singleton, List.not_mem_nil, or_false] at hy
      rcases hy with h | h | h <;> subst h <;> exact ⟨rfl, rfl, rfl⟩⟩)).2

/-- C18: in by-name mode, when the typed decoding is a collection (not nil) and every
record named as the search term has its identifier and both timestamps, the run does
not end in a panic; and the precondition is needed: when the first record of a
collection with non-zero total count is named as the search term, can be marshalled,
and lacks its identifier or a timestamp, the run ends in a nil-dereference panic. -/
theorem C18_no_nil_dereference (w : World) (cfg : MesheryCtlConfig) (a : String)
    (rest : List String) (fmt body : String) (dat : GoMap) (r : ApplicationsAPIResponse)
    (hcfg : w.GetMesheryCtl = .ok cfg)
    (hid : MatchString uuidV4Pattern a = .ok false)
    (hne : Join (a :: rest) "%20" ≠ "")
    (hans : Answered w (cfg.GetBaseMesheryURL ++ "/api/experimental/application?search=" ++
      Join (a :: rest) "%20") body dat (some r)) :
    ((∀ x ∈ r.Applications.getD [], x.Name = Join (a :: rest) "%20" →
        x.ID.isSome ∧ x.UpdatedAt.isSome ∧ x.CreatedAt.isSome) →
      ∀ msg, (RunE w (a :: rest) false fmt).result ≠ .panic msg) ∧
    (∀ x others b, r.TotalCount ≠ 0 → r.Applications = some (x :: others) →
      x.Name = Join (a :: rest) "%20" →
      w.MarshalIndent (.appStructPtr (appStruct.ofApp x)) = .ok b →
      (x.ID = none ∨ x.UpdatedAt = none ∨ x.CreatedAt = none) →
      (RunE w (a :: rest) false fmt).result = .panic nilDereference) := by
  rw [RunE_byName w cfg a rest fmt hcfg hid hne, fetch_answered _ _ _ _ _ _ _ _ _ hans,
    after_result]
  constructor
  · intro hgood msg
    exact project_byName_no_panic w fmt _ dat r body msg hgood
  · intro x others b hcount happs hname hb hmissing
    have hnn : r.Applications.isNone = false := by rw [happs]; rfl
    have hid1 : (appStruct.ofApp x).ID = x.ID := rfl
    have hu1 : (appStruct.ofApp x).UpdatedAt = x.UpdatedAt := rfl
    have hc1 : (appStruct.ofApp x).CreatedAt = x.CreatedAt := rfl
    have hstep : (viewStep w (appStruct.ofApp x)).2 = .returned (.panic nilDereference) := by
      unfold viewStep
      rw [hb, hid1, hu1, hc1]
      rcases hmissing with h | h | h
      · simp [h]
      · cases x.ID <;> simp [h]
      · cases x.ID <;> cases x.UpdatedAt <;> simp [h]
    have hloop : (viewLoop w r (Join (a :: rest) "%20") (x :: others) body).2 =
        .returned (.panic nilDereference) := by
      rw [viewLoop]
      simp only [hnn, hname, Bool.false_eq_true, if_false, if_true]
      cases hv : viewStep w (appStruct.ofApp x) with
      | mk evs exit =>
        rw [hv] at hstep
        simp only at hstep
        subst hstep
        rfl
    rw [project_byName w fmt _ dat r body hcount, happs, after_result]
    simp only [Option.getD_some, hloop]

/-- C18 at a collection whose records have identifier and timestamps, and at a collection
whose only record has a name and an identifier but no timestamp. -/
theorem C18_no_nil_dereference_witness :
    (RunE (listingWorld 2 [sampleApp "my-app" "first", sampleApp "other" "file"])
      ["my-app"] false "yaml").result ≠ .panic nilDereference ∧
    (RunE (listingWorld 1 [idOnlyApp "my-app"]) ["my-app"] false "yaml").result =
      .panic nilDereference :=
  ⟨(C18_no_nil_dereference
      (listingWorld 2 [sampleApp "my-app" "first", sampleApp "other" "file"])
      ⟨"http://localhost:9081"⟩ "my-app" [] "yaml" "listing"
      (listingPayload 2 [sampleApp "my-app" "first", sampleApp "other" "file"])
      ⟨2, some [sampleApp "my-app" "first", sampleApp "other" "file"]⟩
      rfl rfl (by decide) ⟨rfl, rfl, ⟨_, rfl, rfl, rfl⟩, rfl, rfl⟩).1
      (by
        intro x hx _
        have hy : x ∈ [sampleApp "my-app" "first", sampleApp "other" "file"] := hx
        simp only [List.mem_cons, List.mem_singleton, List.not_mem_nil, or_false] at hy
        rcases hy with h | h <;> subst h <;> exact ⟨rfl, rfl, rfl⟩)
      nilDereference,
    (C18_no_nil_dereference (listingWorld 1 [idOnlyApp "my-app"])
      ⟨"http://localhost:9081"⟩ "my-app" [] "yaml" "listing"
      (listingPayload 1 [idOnlyApp "my-app"]) ⟨1, some [idOnlyApp "my-app"]⟩
      rfl rfl (by decide) ⟨rfl, rfl, ⟨_, rfl, rfl, rfl⟩, rfl, rfl⟩).2
      (idOnlyApp "my-app") [] _ (by decide) rfl rfl rfl (Or.inr (Or.inl rfl))⟩

end View
